import Mathlib

/-!
Verification of the BPM template/workflow rendering pipeline.

This file gives a shallow embedding of the core modules of the BPM
repository (`bpm/core/param_resolver.py`, `bpm/utils/interpolate.py`,
`bpm/core/jinja_renderer.py`, `bpm/core/context.py`,
`bpm/core/descriptor_loader.py`, `bpm/core/hooks_runner.py`,
`bpm/core/publish_resolver.py`, `bpm/io/yamlio.py`,
`bpm/core/project_io.py`, `bpm/core/template_service.py`) and proves or
refutes the specification claims about them.

Modelling conventions:
- Python values are modelled by the inductive `Val`; Python `dict`s are
  insertion-ordered association lists over `String` keys (`dGet`/`dSet`
  mirror `d[k]`/`d[k] = v`).
- Fallible Python code is modelled in `Except PyErr`.
- Python floats are modelled as exact rationals carrying their literal;
  IEEE-754 rounding is abstracted (no claim depends on float values).
- Filesystem state is explicit and passed around; `Path.resolve()` is
  modelled as lexical path normalisation (symlinks abstracted).
-/

namespace BPM

/-- Python-level errors raised by the embedded code. -/
inductive PyErr where
  | keyError (k : String)
  | attributeError (k : String)
  | valueError (msg : String)
  | typeError (msg : String)
  | importError (msg : String)
  | fileNotFound (msg : String)
  | yamlError (msg : String)
  deriving DecidableEq, Repr

/-- Python values as produced by `yaml.safe_load` and passed around the
pipeline: `None`, booleans, ints, floats, strings, lists and dicts.
A float carries both its exact rational value and the literal it was
parsed from (IEEE-754 rounding and float repr canonicalisation are
abstracted; no claim depends on them). -/
inductive Val where
  | none
  | bool (b : Bool)
  | int (n : Int)
  | float (q : ℚ) (lit : String)
  | str (s : String)
  | list (xs : List Val)
  | dict (kvs : List (String × Val))
  deriving Repr

/-- Single-quote character, used when mirroring Python error messages. -/
def sq : String := String.singleton (Char.ofNat 39)

/-- Open-brace character. -/
def obr : Char := Char.ofNat 123

/-- Close-brace character. -/
def cbr : Char := Char.ofNat 125

/-- Lookup in an insertion-ordered string-keyed dict (Python `d.get(k)`). -/
def dGet {α : Type} : List (String × α) → String → Option α
  | [], _ => Option.none
  | (k0, v) :: rest, k => if k0 = k then some v else dGet rest k

/-- Update in an insertion-ordered dict (Python `d[k] = v`): replaces in
place if the key exists, appends otherwise. -/
def dSet {α : Type} : List (String × α) → String → α → List (String × α)
  | [], k, v => [(k, v)]
  | (k0, w) :: rest, k, v =>
      if k0 = k then (k, v) :: rest else (k0, w) :: dSet rest k v

/-- Removal from a dict (Python `d.pop(k, None)` / `os unlink` on a path map). -/
def dRemove {α : Type} : List (String × α) → String → List (String × α)
  | [], _ => []
  | (k0, w) :: rest, k =>
      if k0 = k then dRemove rest k else (k0, w) :: dRemove rest k

/-- Keys of a dict, in order. -/
def dKeys {α : Type} (m : List (String × α)) : List String := m.map Prod.fst

/-- Python `str()` of a value. repr of lists/dicts is abstracted (no claim
depends on it); float repr is the stored literal. -/
def pyStrVal : Val → String
  | .none => "None"
  | .bool b => if b then "True" else "False"
  | .int n => toString n
  | .float _ lit => lit
  | .str s => s
  | .list _ => "<list>"
  | .dict _ => "<dict>"

/-- Python truthiness of a value. -/
def pyTruthy : Val → Bool
  | .none => false
  | .bool b => b
  | .int n => n != 0
  | .float q _ => q != 0
  | .str s => s != ""
  | .list xs => !xs.isEmpty
  | .dict kvs => !kvs.isEmpty

/-- Python `a or b` on values. -/
def pyOr (a b : Val) : Val := if pyTruthy a then a else b

/-- Whitespace recognised by Python `str.strip()` (the common cases). -/
def isSpaceChar (c : Char) : Bool :=
  c == ' ' || c == '\t' || c == '\n' || c == '\r'

/-- Python `str.strip()` on a character list. -/
def trimL (l : List Char) : List Char :=
  ((l.dropWhile isSpaceChar).reverse.dropWhile isSpaceChar).reverse

/-- Python `str.strip()`. -/
def pyStrip (s : String) : String := String.mk (trimL s.data)

/-- Python `str.lower()` (ASCII case folding). -/
def strToLower (s : String) : String := String.mk (s.data.map Char.toLower)

/-- Split a character list at the first occurrence of a separator
substring: the characters before it and those after it. -/
def takeUntilSub (sep : List Char) : List Char → Option (List Char × List Char)
  | [] => Option.none
  | c :: cs =>
      if sep.isPrefixOf (c :: cs) then some ([], (c :: cs).drop sep.length)
      else
        match takeUntilSub sep cs with
        | some p => some (c :: p.1, p.2)
        | Option.none => Option.none

/-- Split a string at the first occurrence of a separator
(Python `s.split(sep, 1)` when the separator occurs). -/
def splitOnce (s sep : String) : Option (String × String) :=
  (takeUntilSub sep.data s.data).map (fun p => (String.mk p.1, String.mk p.2))

/-- Python `s.split(sep)` for a one-character separator, keeping empty
segments. -/
def splitOnCharL (sep : Char) : List Char → List (List Char)
  | [] => [[]]
  | c :: cs =>
      if c = sep then [] :: splitOnCharL sep cs
      else
        match splitOnCharL sep cs with
        | h :: t => (c :: h) :: t
        | [] => [[c]]

/-- Python `s.split(sep)` on strings for a one-character separator. -/
def splitOnChar (sep : Char) (s : String) : List String :=
  (splitOnCharL sep s.data).map String.mk

/-- First dotted component of a name (Python `s.split(".", 1)[0]`). -/
def firstComponent (s : String) : String := ((splitOnChar '.' s).headD s)

/-- Value of a digit string (most significant first). -/
def digitsToNat (ds : List Char) : Nat :=
  ds.foldl (fun n c => n * 10 + (c.toNat - 48)) 0

/-- Parse a decimal literal to an exact rational, mirroring the common core
of Python `float(str)`: optional sign, integer digits, optional fractional
part. Exponents, `inf`/`nan` and underscores are not modelled (no claim
depends on them). -/
def parseDecimal (s : String) : Option ℚ :=
  let step : List Char → Option ℚ := fun cs =>
    let ip := cs.takeWhile Char.isDigit
    match cs.dropWhile Char.isDigit with
    | [] => if ip.isEmpty then Option.none else some ((digitsToNat ip : ℚ))
    | '.' :: fp =>
        let fd := fp.takeWhile Char.isDigit
        if (fp.dropWhile Char.isDigit).isEmpty && !(ip.isEmpty && fd.isEmpty) then
          some ((digitsToNat ip : ℚ) + (digitsToNat fd : ℚ) / ((10 : ℚ) ^ fd.length))
        else Option.none
    | _ => Option.none
  match s.data with
  | '-' :: rest => (step rest).map (fun q => -q)
  | '+' :: rest => step rest
  | cs => step cs

/-- Parse an unsigned digit run (`None` when empty or non-digit). -/
def parseNatL (l : List Char) : Option Nat :=
  if l.isEmpty || !(l.all Char.isDigit) then Option.none
  else some (digitsToNat l)

/-- Python `int(str)`: strip whitespace, optional sign, digits. -/
def pyIntOfString (s : String) : Option Int :=
  match trimL s.data with
  | '+' :: rest => (parseNatL rest).map Int.ofNat
  | '-' :: rest => (parseNatL rest).map (fun n => -(n : Int))
  | l => (parseNatL l).map Int.ofNat

/-- Truncation toward zero (Python `int()` applied to a float). -/
def ratTrunc (q : ℚ) : Int := if q < 0 then -(Rat.floor (-q)) else Rat.floor q

/-- Python `int(val)` for the value kinds that can reach `_coerce`. -/
def pyInt : Val → Except PyErr Val
  | .str s =>
      match pyIntOfString s with
      | some n => .ok (.int n)
      | Option.none => .error (.valueError ("invalid literal for int: " ++ s))
  | .int n => .ok (.int n)
  | .bool b => .ok (.int (if b then 1 else 0))
  | .float q _ => .ok (.int (ratTrunc q))
  | _ => .error (.typeError "int() argument")

/-- Python `float(val)` for the value kinds that can reach `_coerce`. -/
def pyFloat : Val → Except PyErr Val
  | .str s =>
      match parseDecimal (pyStrip s) with
      | some q => .ok (.float q (pyStrip s))
      | Option.none => .error (.valueError ("could not convert string to float: " ++ s))
  | .int n => .ok (.float (n : ℚ) (toString n ++ ".0"))
  | .bool b => .ok (.float (if b then 1 else 0) (if b then "1.0" else "0.0"))
  | .float q lit => .ok (.float q lit)
  | _ => .error (.typeError "float() argument")

/-- Truthy strings accepted by the `bool` coercion
(`param_resolver._coerce`). -/
def truthyStrings : List String := ["1", "true", "yes", "y", "on"]

/-- Embedding of `param_resolver._coerce`: coerce a raw value to the
declared ParamSpec type. `None` passes through; `str` or unknown types are
left as-is. -/
def coerceOne (v : Val) (typ : String) : Except PyErr Val :=
  match v with
  | .none => .ok .none
  | _ =>
      if typ = "int" then pyInt v
      else if typ = "float" then pyFloat v
      else if typ = "bool" then
        match v with
        | .bool b => .ok (.bool b)
        | _ => .ok (.bool (truthyStrings.contains (strToLower (pyStrVal v))))
      else .ok v

/-- Interpolation context: a mixed tree of objects (attribute access) and
mappings (item access), with plain values at the leaves. Mirrors the
`ctx`/`ctx_like` graphs passed to `bpm.utils.interpolate`. -/
inductive CtxTree where
  | val (v : Val)
  | node (isMap : Bool) (fields : List (String × CtxTree))

/-- Embedding of `interpolate._get_attr_path`: walk a dotted path through
mixed objects and mappings. A mapping misses with `KeyError`, an object
(or a plain leaf value, including `None`) misses with `AttributeError` —
there is no leniency for absent branches in the source. -/
def getAttrPath : CtxTree → List String → Except PyErr CtxTree
  | cur, [] => .ok cur
  | .node isMap fields, p :: rest =>
      (match dGet fields p with
      | some c => getAttrPath c rest
      | Option.none => .error (if isMap then .keyError p else .attributeError p))
  | .val _, p :: _ => .error (.attributeError p)

/-- Python `str()` of whatever `_get_attr_path` returned (object reprs are
abstracted). -/
def treeStr : CtxTree → String
  | .val v => pyStrVal v
  | .node _ _ => "<object>"

/-- Replacement performed by `interpolate_ctx_string.repl`: empty string
for a resolved `None`, otherwise `str(val)`. -/
def replOf : CtxTree → String
  | .val .none => ""
  | t => treeStr t

/-- Characters of the marker prefix that follows the dollar sign in
`${ctx.` (the regex `\$\{ctx\.([^\}]+)\}`). -/
def markerHead : List Char := [obr, 'c', 't', 'x', '.']

/-- Split a character list at the first closing brace: the characters
before it and the remainder after it (`None` when no brace occurs). -/
def splitAtBrace : List Char → Option (List Char × List Char)
  | [] => Option.none
  | c :: cs =>
      if c = cbr then some ([], cs)
      else (splitAtBrace cs).map (fun p => (c :: p.1, p.2))

/-- Scan for the capture group `([^\}]+)\}`: the (nonempty) characters up
to the first closing brace, and the remainder after that brace. -/
def findCapture (l : List Char) : Option (List Char × List Char) :=
  match splitAtBrace l with
  | some (cap, rest2) => if cap.isEmpty then Option.none else some (cap, rest2)
  | Option.none => Option.none

/-- Embedding of the scanning loop of `re.sub` with the pattern
`\$\{ctx\.([^\}]+)\}` and `interpolate_ctx_string.repl` as the
replacement: left-to-right scan, non-overlapping matches, a failed lookup
propagates as an exception.  The extra `fuel` argument (instantiated with
the length of the scanned text, which every step strictly decreases) only
makes the recursion structural, so that the function evaluates inside the
kernel; the `fuel = 0` branch is unreachable for adequate fuel. -/
def interpGo (ctx : CtxTree) : Nat → List Char → Except PyErr (List Char)
  | 0, _ => .ok []
  | _, [] => .ok []
  | fuel + 1, c :: cs =>
      if c = '$' ∧ cs.take 5 = markerHead then
        match findCapture (cs.drop 5) with
        | some (cap, rest2) =>
            (match getAttrPath ctx ((splitOnCharL '.' cap).map String.mk) with
            | .error e => .error e
            | .ok nd =>
                match interpGo ctx fuel rest2 with
                | .error e => .error e
                | .ok tail => .ok ((replOf nd).data ++ tail))
        | Option.none =>
            (match interpGo ctx fuel cs with
            | .error e => .error e
            | .ok tail => .ok (c :: tail))
      else
        match interpGo ctx fuel cs with
        | .error e => .error e
        | .ok tail => .ok (c :: tail)

/-- Embedding of `interpolate.interpolate_ctx_string`. -/
def interpolateCtxString (s : String) (ctx : CtxTree) : Except PyErr String :=
  (interpGo ctx s.data.length s.data).map String.mk

/-- Substring test for the literal `${ctx.` marker
(`"${ctx." in v` in `param_resolver.resolve`). -/
def containsMarkerL : List Char → Bool
  | [] => false
  | c :: cs => (c == '$' && cs.take 5 == markerHead) || containsMarkerL cs

/-- Marker test on strings. -/
def containsMarker (s : String) : Bool := containsMarkerL s.data

/-- Python `val is None` (an identity test, not an equality test). -/
def Val.isNoneV : Val → Bool
  | .none => true
  | _ => false

/-- Embedding of `descriptor_loader.ParamSpec`. Values that the loader does
not force to a specific Python type are kept as `Val`. `existsKind` models
the normalised `exists` field. -/
structure ParamSpec where
  name : String
  type : String := "str"
  cli : Val := .none
  required : Bool := false
  default : Val := .none
  existsKind : Option String := Option.none
  description : Val := .none
  deriving Repr

/-- Embedding of `descriptor_loader.Descriptor` (the in-memory form of
`template.config.yaml`). -/
structure Descriptor where
  id : String
  description : Val := .none
  params : List (String × ParamSpec) := []
  render_into : String := ""
  render_files : List (Val × Val) := []
  run_entry : Val := .none
  required_templates : List Val := []
  publish : Val := .dict []
  hooks : Val := .dict []
  tools_required : List String := []
  tools_optional : List String := []
  deriving Repr

/-- One `templates[]` entry of a persisted `project.yaml` document. -/
structure TemplateEntry where
  id : String
  source_template : Option String := Option.none
  status : String := "active"
  params : List (String × Val) := []
  published : List (String × Val) := []
  deriving Repr

/-- The in-memory form of a loaded `project.yaml` document (the fields the
embedded operations touch). -/
structure Project where
  name : String := ""
  project_path : String := ""
  status : String := "initiated"
  templates : List TemplateEntry := []
  deriving Repr

/-- Loop of tier 1 of `param_resolver.resolve`: descriptor defaults (only
set when the declared default is not `None`). -/
def applyDefaultsFold : List (String × ParamSpec) → List (String × Val) →
    List (String × Val)
  | [], b => b
  | kv :: rest, b =>
      applyDefaultsFold rest
        (if Val.isNoneV kv.2.default then b else dSet b kv.1 kv.2.default)

/-- Tier 1 of `param_resolver.resolve`, starting from an empty dict. -/
def applyDefaults (desc : Descriptor) : List (String × Val) :=
  applyDefaultsFold desc.params []

/-- Inner loop of tier 2: merge one stored parameter dict into the
accumulator. -/
def storedFold : List (String × Val) → List (String × Val) → List (String × Val)
  | b, [] => b
  | b, kv :: rest => storedFold (dSet b kv.1 kv.2) rest

/-- Outer loop of tier 2 over the project template entries: merge the
params of every entry whose `id` equals the descriptor id. -/
def applyStoredFold (desc : Descriptor) : List TemplateEntry →
    List (String × Val) → List (String × Val)
  | [], b => b
  | t :: rest, b =>
      applyStoredFold desc rest
        (if t.id = desc.id then storedFold b t.params else b)

/-- Tier 2 of `param_resolver.resolve` (skipped in ad-hoc mode). -/
def applyStored (desc : Descriptor) (proj : Option Project)
    (b : List (String × Val)) : List (String × Val) :=
  match proj with
  | Option.none => b
  | some p => applyStoredFold desc p.templates b

/-- Loop of tier 3 of `param_resolver.resolve`: CLI overrides, applied
only to declared parameters. -/
def applyCliFold (desc : Descriptor) : List (String × Val) →
    List (String × Val) → List (String × Val)
  | [], b => b
  | kv :: rest, b =>
      applyCliFold desc rest
        (if (dGet desc.params kv.1).isSome then dSet b kv.1 kv.2 else b)

/-- Tier 3 of `param_resolver.resolve`. -/
def applyCli (desc : Descriptor) (cli : List (String × Val))
    (b : List (String × Val)) : List (String × Val) :=
  applyCliFold desc cli b

/-- Steps 1-3 of `param_resolver.resolve`, in source order. -/
def mergeTiers (desc : Descriptor) (cli : List (String × Val))
    (proj : Option Project) : List (String × Val) :=
  applyCli desc cli (applyStored desc proj (applyDefaults desc))

/-- Step 4 of `param_resolver.resolve` as a loop over the declared
parameters: every declared parameter present in the accumulator dict is
coerced in place; a coercion exception aborts the loop. -/
def coerceAll : List (String × ParamSpec) → List (String × Val) →
    Except PyErr (List (String × Val))
  | [], b => .ok b
  | kv :: rest, b =>
      match dGet b kv.1 with
      | some v =>
          (match coerceOne v kv.2.type with
          | .error e => .error e
          | .ok v2 => coerceAll rest (dSet b kv.1 v2))
      | Option.none => coerceAll rest b

/-- Step 5 of `param_resolver.resolve` as a loop over a snapshot of the
dict items (`list(base.items())`): every string value containing the
`${ctx.` marker is interpolated in place. -/
def interpFold (ctxLike : CtxTree) : List (String × Val) → List (String × Val) →
    Except PyErr (List (String × Val))
  | [], b => .ok b
  | kv :: rest, b =>
      match kv.2 with
      | .str s =>
          if containsMarker s then
            match interpolateCtxString s ctxLike with
            | .error e => .error e
            | .ok s2 => interpFold ctxLike rest (dSet b kv.1 (Val.str s2))
          else interpFold ctxLike rest b
      | _ => interpFold ctxLike rest b

/-- Step 5 of `param_resolver.resolve`: the snapshot iterated over is the
dict itself. -/
def interpAll (ctxLike : CtxTree) (b0 : List (String × Val)) :
    Except PyErr (List (String × Val)) :=
  interpFold ctxLike b0 b0

/-- Step 6 of `param_resolver.resolve`: required parameters whose key is
absent from the final dict. -/
def requiredMissing (desc : Descriptor) (b : List (String × Val)) : List String :=
  (desc.params.filter (fun kv => kv.2.required && (dGet b kv.1).isNone)).map Prod.fst

/-- Embedding of `param_resolver.resolve`: three-tier precedence merge,
type coercion, `${ctx.*}` interpolation, then the aggregated
required-parameter check. -/
def resolve (desc : Descriptor) (cli : List (String × Val)) (proj : Option Project)
    (ctxLike : CtxTree) : Except PyErr (List (String × Val)) :=
  match coerceAll desc.params (mergeTiers desc cli proj) with
  | .error e => .error e
  | .ok coerced =>
      match interpAll ctxLike coerced with
      | .error e => .error e
      | .ok final =>
          let missing := requiredMissing desc final
          if missing.isEmpty then .ok final
          else
            .error (.valueError
              ("Missing required parameters: " ++ String.intercalate ", " missing))

/-- What step 5 does to one value: a string containing the marker is
interpolated, everything else is left unchanged. -/
def interpValue (ctxLike : CtxTree) (v : Val) : Except PyErr Val :=
  match v with
  | .str s =>
      if containsMarker s then (interpolateCtxString s ctxLike).map Val.str
      else .ok v
  | _ => .ok v

/-- What happens to the winning tier value of one declared parameter on
its way through steps 4-5: coercion by the declared type, then marker
interpolation when the result is a marker-bearing string. -/
def postValue (spec : ParamSpec) (ctxLike : CtxTree) (v : Val) : Except PyErr Val :=
  match coerceOne v spec.type with
  | .error e => .error e
  | .ok v1 => interpValue ctxLike v1

/-- Concrete descriptor used by the C1 witness: one declared parameter
`p` of type `str` with default `"d"`. -/
def c1spec : ParamSpec := { name := "p", default := .str "d" }

/-- Concrete descriptor for the C1 witness. -/
def c1desc : Descriptor := { id := "t", params := [("p", c1spec)] }

/-- Concrete project state for the C1 witness: one entry for `t` storing
`p = "s"`. -/
def c1proj : Project :=
  { name := "P", templates := [{ id := "t", params := [("p", .str "s")] }] }

/-- Concrete descriptor for the C9 witness: two required parameters
without defaults. -/
def c9desc : Descriptor :=
  { id := "t",
    params := [("a", { name := "a", required := true }),
               ("b", { name := "b", required := true })] }

/-- Concrete interpolation context reproducing the repository's own unit
test `test_interpolate_none_parent_becomes_empty`:
`SimpleNamespace(project=None, template=SimpleNamespace(id="T"))`. -/
def c4ctx : CtxTree :=
  .node false [("project", .val .none), ("template", .node false [("id", .val (.str "T"))])]

/-- Embedding of `context.CtxProject`. -/
structure CtxProject where
  name : String
  project_path : String
  deriving Repr

/-- Embedding of `context.CtxTemplate`. -/
structure CtxTemplate where
  id : String
  published : List (String × Val) := []
  deriving Repr

/-- Embedding of the data fields of `context.Ctx`.  The `brs` dict may
hold nested config trees. -/
structure Ctx where
  project : Option CtxProject
  template : CtxTemplate
  params : List (String × Val)
  brs : List (String × CtxTree) := []
  cwd : String

/-- Embedding of `Ctx.materialize`: `"host:/abs" -> "/abs"` strip. -/
def materializeHostPath (hostpath : String) : String :=
  match splitOnce hostpath ":" with
  | some p =>
      (match p.2.data with
      | '/' :: _ => p.2
      | _ => "/" ++ p.2)
  | Option.none => hostpath

/-- Embedding of the `Ctx.project_dir` property. -/
def Ctx.projectDir (c : Ctx) : String :=
  match c.project with
  | some p => materializeHostPath p.project_path
  | Option.none => c.cwd

/-- View a value dict as interpolation-tree fields. -/
def valMapToTree (m : List (String × Val)) : List (String × CtxTree) :=
  m.map (fun kv => (kv.1, CtxTree.val kv.2))

/-- The attribute tree a `Ctx` object presents to
`interpolate._get_attr_path` (`getattr` on the dataclass): its five data
fields plus the computed `project_dir` property.  Bound methods
(`hostname`, `now`, `materialize`) are not modelled — interpolating them
never occurs in the pipeline. -/
def ctxToTree (c : Ctx) : CtxTree :=
  .node false
    [("project",
        match c.project with
        | some p =>
            .node false [("name", .val (.str p.name)),
                         ("project_path", .val (.str p.project_path))]
        | Option.none => .val .none),
     ("template",
        .node false [("id", .val (.str c.template.id)),
                     ("published", .node true (valMapToTree c.template.published))]),
     ("params", .node true (valMapToTree c.params)),
     ("brs", .node true c.brs),
     ("cwd", .val (.str c.cwd)),
     ("project_dir", .val (.str c.projectDir))]

/-- Embedding of `context.build`: the pure constructor.  Its parameters
are exactly `(project, tpl_id, params, brs_config, cwd)` — there is no
`source_id` parameter (C3 hinges on this). -/
def build (project : Option Project) (tplId : String)
    (params : List (String × Val)) (brs : List (String × CtxTree))
    (cwd : String) : Ctx :=
  { project := project.map (fun p => { name := p.name, project_path := p.project_path }),
    template := { id := tplId, published := [] },
    params := params, brs := brs, cwd := cwd }

/-- Result of `brs_loader.get_paths()`: the active bundle layout. -/
structure BrsPaths where
  templates_dir : String
  workflows_dir : String
  root : String
  config_dir : String
  deriving Repr

/-- Python `Path(base) / rel`: an absolute right operand replaces the
left one. -/
def pathConcat (base rel : String) : String :=
  match rel.data with
  | '/' :: _ => rel
  | _ => base ++ "/" ++ rel

/-- Lexical core of `Path.resolve()` on an absolute path: drop empty and
`.` segments and apply `..`.  Symlinks and the process working directory
are abstracted. -/
def resolvePath (p : String) : String :=
  let segs := (splitOnChar '/' p).filter (fun s => s != "" && s != ".")
  let stack := segs.foldl
    (fun st seg => if seg = ".." then st.dropLast else st ++ [seg])
    ([] : List String)
  "/" ++ String.intercalate "/" stack

/-- Embedding of `jinja_renderer._expand_render_into`: interpolate
`render.into` against the context and anchor it under `ctx.cwd`. -/
def expandRenderInto (desc : Descriptor) (ctx : Ctx) : Except PyErr String :=
  match interpolateCtxString desc.render_into (ctxToTree ctx) with
  | .error e => .error e
  | .ok into => .ok (resolvePath (pathConcat ctx.cwd into))

/-- The four plan action kinds of `jinja_renderer`. -/
inductive ActionKind where
  | mkdir
  | render
  | copy
  | chmod
  deriving DecidableEq, Repr

/-- Embedding of `jinja_renderer.PlanItem`. -/
structure PlanItem where
  action : ActionKind
  src : Option String
  dst : String
  deriving DecidableEq, Repr

/-- Python `s.endswith(suffix)`. -/
def strEndsWith (s suffix : String) : Bool := suffix.data.isSuffixOf s.data

/-- Resolution of the template/workflow root directory in
`jinja_renderer._build_plan`: `templates/<id>`, falling back to
`workflows/<id>` when the former does not exist and the latter does. -/
def templateRoot (paths : BrsPaths) (pathExists : String → Bool)
    (descId : String) : String :=
  let tplRoot := pathConcat paths.templates_dir descId
  if !(pathExists tplRoot) then
    let wfRoot := pathConcat paths.workflows_dir descId
    if pathExists wfRoot then wfRoot else tplRoot
  else tplRoot

/-- The per-file loop of `jinja_renderer._build_plan`: one `render` item
for a `.j2` source, one `copy` item otherwise; sources are anchored at
the template root, destinations at the target directory.  A non-string
source or destination fails the path join with `TypeError`. -/
def planFiles (tplRoot targetDir : String) : List (Val × Val) →
    Except PyErr (List PlanItem)
  | [] => .ok []
  | (src, dst) :: rest =>
      match src, dst with
      | .str s, .str d =>
          (planFiles tplRoot targetDir rest).map (fun r =>
            (if strEndsWith s ".j2" then
              PlanItem.mk .render (some (pathConcat tplRoot s)) (pathConcat targetDir d)
            else
              PlanItem.mk .copy (some (pathConcat tplRoot s)) (pathConcat targetDir d)) :: r)
      | _, _ => .error (.typeError "unsupported operand type for path join")

/-- The trailing chmod item of `jinja_renderer._build_plan`, emitted when
a run entry is declared. -/
def planChmod (targetDir : String) (runEntry : Val) : Except PyErr (List PlanItem) :=
  if pyTruthy runEntry then
    match runEntry with
    | .str e => .ok [PlanItem.mk .chmod Option.none (pathConcat targetDir e)]
    | _ => .error (.typeError "unsupported operand type for path join")
  else .ok []

/-- Embedding of `jinja_renderer._build_plan`: the ordered plan plus the
template root and target directory.  `pathExists` stands for
`Path.exists()` on the host filesystem. -/
def buildPlan (paths : BrsPaths) (pathExists : String → Bool)
    (desc : Descriptor) (ctx : Ctx) :
    Except PyErr (List PlanItem × String × String) :=
  let tplRoot := templateRoot paths pathExists desc.id
  match expandRenderInto desc ctx with
  | .error e => .error e
  | .ok targetDir =>
      match planFiles tplRoot targetDir desc.render_files with
      | .error e => .error e
      | .ok items =>
          match planChmod targetDir desc.run_entry with
          | .error e => .error e
          | .ok chmodItems =>
              .ok (PlanItem.mk .mkdir Option.none targetDir :: (items ++ chmodItems),
                   tplRoot, targetDir)

/-- Observable effects of executing the pipeline (filesystem writes,
subprocesses, hooks, document saves). -/
inductive FxEvent where
  | mkdirDir (p : String)
  | writeFile (p : String)
  | copyFile (src dst : String)
  | chmodFile (p : String)
  | saveDoc (p : String)
  | runProc (cwd : String)
  | runHook (ref : String)
  deriving DecidableEq, Repr

/-- Python `Path(p).relative_to(root)` for the case the planner
guarantees (p lies under root); used only in an error message. -/
def relTo (root p : String) : String :=
  if (root ++ "/").data.isPrefixOf p.data then
    String.mk (p.data.drop (root.length + 1))
  else p

/-- Execution loop of `jinja_renderer.render` over the plan, emitting one
effect per step, stopping at the first exception.  `fileExists` stands
for source-file existence (`TemplateNotFound` → `FileNotFoundError` for a
`.j2` source, `shutil.copy2` failure otherwise); `tplRender` is the
Jinja2 rendering oracle for a source path (it fails on an undefined
variable under `StrictUndefined`).  `chmod` (`fs.make_executable`) is a
no-op when the target is missing, so it always succeeds. -/
def execPlan (tplRoot : String) (fileExists : String → Bool)
    (tplRender : String → Except PyErr String) :
    List PlanItem → List FxEvent → (List FxEvent × Option PyErr)
  | [], acc => (acc, Option.none)
  | step :: rest, acc =>
      match step.action with
      | .mkdir => execPlan tplRoot fileExists tplRender rest (acc ++ [.mkdirDir step.dst])
      | .render =>
          let srcp := step.src.getD ""
          if fileExists srcp then
            match tplRender srcp with
            | .ok _content =>
                execPlan tplRoot fileExists tplRender rest (acc ++ [.writeFile step.dst])
            | .error e => (acc, some e)
          else (acc, some (.fileNotFound ("Template not found: " ++ relTo tplRoot srcp)))
      | .copy =>
          let srcp := step.src.getD ""
          if fileExists srcp then
            execPlan tplRoot fileExists tplRender rest (acc ++ [.copyFile srcp step.dst])
          else (acc, some (.fileNotFound srcp))
      | .chmod => execPlan tplRoot fileExists tplRender rest (acc ++ [.chmodFile step.dst])

/-- Embedding of `jinja_renderer.render`: always build the plan the same
way, return it untouched when `dry`, otherwise execute it step by step in
plan order and return the same plan on success. -/
def renderTpl (paths : BrsPaths) (pathExists : String → Bool)
    (fileExists : String → Bool) (tplRender : String → Except PyErr String)
    (desc : Descriptor) (ctx : Ctx) (dry : Bool) :
    Except PyErr (List PlanItem) × List FxEvent :=
  match buildPlan paths pathExists desc ctx with
  | .error e => (.error e, [])
  | .ok (plan, tplRoot, _targetDir) =>
      if dry then (.ok plan, [])
      else
        match execPlan tplRoot fileExists tplRender plan [] with
        | (events, Option.none) => (.ok plan, events)
        | (events, some e) => (.error e, events)

/-- The effect a successfully executed plan step produces. -/
def stepEvent (step : PlanItem) : FxEvent :=
  match step.action with
  | .mkdir => .mkdirDir step.dst
  | .render => .writeFile step.dst
  | .copy => .copyFile (step.src.getD "") step.dst
  | .chmod => .chmodFile step.dst

/-- The per-pair plan items as claim C6 words them: for each declared
(source, destination) pair in declaration order, a render action if the
source name ends in the templating-file suffix `.j2` and a copy action
otherwise, with the source resolved relative to the template/workflow's
own directory and the destination relative to the target directory. -/
def claimedFilesC6 (ownDir targetDir : String) : List (Val × Val) →
    Except PyErr (List PlanItem)
  | [] => .ok []
  | (src, dst) :: rest =>
      match src, dst with
      | .str s, .str d =>
          (claimedFilesC6 ownDir targetDir rest).map (fun r =>
            (if strEndsWith s ".j2" then
              PlanItem.mk .render (some (pathConcat ownDir s)) (pathConcat targetDir d)
            else
              PlanItem.mk .copy (some (pathConcat ownDir s)) (pathConcat targetDir d)) :: r)
      | _, _ => .error (.typeError "unsupported operand type for path join")

/-- The full plan as claim C6 words it: first a single mkdir action for
the target directory obtained by interpolating `render_into` against the
context and anchoring under `context.cwd`; then the per-pair items; and
finally, if a run entry is declared, a trailing chmod action on the entry
path under the target directory. -/
def claimedPlanC6 (paths : BrsPaths) (pathExists : String → Bool)
    (desc : Descriptor) (ctx : Ctx) : Except PyErr (List PlanItem) :=
  match interpolateCtxString desc.render_into (ctxToTree ctx) with
  | .error e => .error e
  | .ok into =>
      let target := resolvePath (pathConcat ctx.cwd into)
      match claimedFilesC6 (templateRoot paths pathExists desc.id) target
          desc.render_files with
      | .error e => .error e
      | .ok fileItems =>
          match planChmod target desc.run_entry with
          | .error e => .error e
          | .ok tail => .ok (PlanItem.mk .mkdir Option.none target :: (fileItems ++ tail))

/-- Concrete descriptor for the C2 witness: one templated file, one
static file, a run entry. -/
def c2desc : Descriptor :=
  { id := "hello", render_into := "out",
    render_files := [(.str "run.sh.j2", .str "run.sh"), (.str "data.txt", .str "data.txt")],
    run_entry := .str "run.sh" }

/-- Concrete context for the C2 witness (ad-hoc mode, cwd `/proj`). -/
def c2ctx : Ctx :=
  { project := Option.none, template := { id := "hello" }, params := [], cwd := "/proj" }

/-- Concrete bundle layout for the C2 witness. -/
def c2paths : BrsPaths :=
  { templates_dir := "/brs/templates", workflows_dir := "/brs/workflows",
    root := "/brs", config_dir := "/brs/config" }

/-- The plan both runs of the C2 witness produce. -/
def c2plan : List PlanItem :=
  [PlanItem.mk .mkdir Option.none "/proj/out",
   PlanItem.mk .render (some "/brs/templates/hello/run.sh.j2") "/proj/out/run.sh",
   PlanItem.mk .copy (some "/brs/templates/hello/data.txt") "/proj/out/data.txt",
   PlanItem.mk .chmod Option.none "/proj/out/run.sh"]

/-- Contents of a path in the modelled filesystem of C7: a fully
serialized document, or the partial content left by an interrupted
write. -/
inductive DocState where
  | full (d : Val)
  | halfWritten
  deriving Repr

/-- Where a `safe_dump_yaml` call can fail: not at all, while writing the
temporary file, or at the atomic rename. -/
inductive WriteOutcome where
  | success
  | failDuringWrite
  | failDuringReplace
  deriving DecidableEq, Repr

/-- Embedding of `yamlio.safe_dump_yaml`: serialize to the temporary
sibling `<path>.tmp` (the `with_suffix` computation appends `.tmp`), then
`os.replace` it onto the target; on any failure the temporary file is
unlinked and a `YamlError` is raised.  The filesystem is a map from path
to document state; directory creation is not part of this map. -/
def safeDumpYaml (fs : List (String × DocState)) (path : String) (data : Val)
    (oc : WriteOutcome) : List (String × DocState) × Except PyErr Unit :=
  let tmp := path ++ ".tmp"
  match oc with
  | .success =>
      let fs1 := dSet fs tmp (.full data)
      (dSet (dRemove fs1 tmp) path (.full data), .ok ())
  | .failDuringWrite =>
      let fs1 := dSet fs tmp .halfWritten
      (dRemove fs1 tmp, .error (.yamlError ("Failed to write YAML: " ++ path)))
  | .failDuringReplace =>
      let fs1 := dSet fs tmp (.full data)
      (dRemove fs1 tmp, .error (.yamlError ("Failed to write YAML: " ++ path)))

/-- Embedding of `project_io.save`: write `<dir>/project.yaml` through
`safe_dump_yaml` (the directory-creation step does not touch any
document). -/
def saveProject (fs : List (String × DocState)) (projectDir : String) (data : Val)
    (oc : WriteOutcome) : List (String × DocState) × Except PyErr Unit :=
  safeDumpYaml fs (pathConcat projectDir "project.yaml") data oc

/-- Embedding of `template_service._save_meta` (and of the ad-hoc meta
write in `render`): write `<out>/bpm.meta.yaml` through
`safe_dump_yaml`. -/
def saveMeta (fs : List (String × DocState)) (outDir : String) (meta : Val)
    (oc : WriteOutcome) : List (String × DocState) × Except PyErr Unit :=
  safeDumpYaml fs (pathConcat outDir "bpm.meta.yaml") meta oc

/-- Identity of a loaded module implementation: the root it was imported
from and the moment it was loaded (`loadedAt` distinguishes a fresh load
from a cached one, covering both bundle switches and source edits between
invocations). -/
structure ModImpl where
  root : String
  loadedAt : Nat
  deriving DecidableEq, Repr

/-- The slice of interpreter state the import machinery touches:
`sys.modules` (name to implementation), `sys.path`, and a logical clock
that distinguishes the current call from earlier ones. -/
structure SysState where
  modules : List (String × ModImpl)
  path : List String
  time : Nat
  deriving DecidableEq, Repr

/-- Embedding of `_purge_module_prefix` (textually identical in
`hooks_runner` and `publish_resolver`): drop every cache entry whose name
equals the purge key or lies under `key.`. -/
def purgeModulePfx (pfx : String) (mods : List (String × ModImpl)) :
    List (String × ModImpl) :=
  mods.filter (fun kv => !(kv.1 == pfx || (pfx ++ ".").data.isPrefixOf kv.1.data))

/-- Embedding of `importlib.import_module` over an abstract module
universe: a cached module is returned as-is; otherwise the first root on
`sys.path` that provides the module is loaded and cached, stamped with
the current time.  `provides root mod` says the tree under `root`
contains module `mod`. -/
def importModule (provides : String → String → Bool) (st : SysState) (m : String) :
    Except PyErr ModImpl × SysState :=
  match dGet st.modules m with
  | some impl => (.ok impl, st)
  | Option.none =>
      match st.path.find? (fun r => provides r m) with
      | some r =>
          let impl : ModImpl := { root := r, loadedAt := st.time }
          (.ok impl, { st with modules := dSet st.modules m impl })
      | Option.none => (.error (.importError ("No module named " ++ m)), st)

/-- Embedding of `hooks_runner.HookCall`. -/
structure HookCall where
  module : String
  func : String := "main"
  deriving DecidableEq, Repr

/-- Embedding of `hooks_runner._parse_hook_path`: split `module:function`
at the first colon, defaulting the function name to `main`. -/
def parseHookPath (path : String) : HookCall :=
  match splitOnce path ":" with
  | some p => { module := pyStrip p.1, func := pyStrip p.2 }
  | Option.none => { module := pyStrip path, func := "main" }

/-- Embedding of `hooks_runner._import_callable`: purge the cache under
the top-level package of the (already colon-split) module name, prepend
the bundle root to `sys.path` when absent, import, look the function up
(`AttributeError` when missing), and remove the root from `sys.path`
again.  `hasFunc f impl` stands for `getattr(mod, f, None) is not None`
on the module loaded as `impl`. -/
def importCallable (provides : String → String → Bool)
    (hasFunc : String → ModImpl → Bool) (brsRoot : String) (st0 : SysState)
    (call : HookCall) : Except PyErr (ModImpl × String) × SysState :=
  let topPkg := firstComponent call.module
  let st1 := { st0 with modules := purgeModulePfx topPkg st0.modules }
  let added := !(st1.path.contains brsRoot)
  let st2 := if added then { st1 with path := brsRoot :: st1.path } else st1
  let (res, st3) := importModule provides st2 call.module
  let res2 : Except PyErr (ModImpl × String) :=
    match res with
    | .ok impl =>
        if hasFunc call.func impl then .ok (impl, call.func)
        else .error (.attributeError call.func)
    | .error e => .error e
  let st4 := if added then { st3 with path := st3.path.erase brsRoot } else st3
  (res2, st4)

/-- Python `s.rsplit(sep, 1)` when the separator occurs: split at the
last occurrence. -/
def rsplitOnce (s sep : String) : Option (String × String) :=
  match takeUntilSub sep.data.reverse s.data.reverse with
  | some p => some (String.mk p.2.reverse, String.mk p.1.reverse)
  | Option.none => Option.none

/-- Cases 3 and 4 of `publish_resolver._import_resolver`: treat the last
dotted component as the function name, or fall back to `main` on a bare
module name. -/
def fallbackResolver (provides : String → String → Bool)
    (hasFunc : String → ModImpl → Bool) (st : SysState) (dotted : String) :
    Except PyErr (ModImpl × String) × SysState :=
  match rsplitOnce dotted "." with
  | some p =>
      let (res, st2) := importModule provides st p.1
      (((match res with
        | .ok impl =>
            if hasFunc p.2 impl then .ok (impl, p.2)
            else .error (.attributeError p.2)
        | .error e => .error e) : Except PyErr (ModImpl × String)), st2)
  | Option.none =>
      let (res, st2) := importModule provides st dotted
      (((match res with
        | .ok impl =>
            if hasFunc "main" impl then .ok (impl, "main")
            else .error (.attributeError "main")
        | .error e => .error e) : Except PyErr (ModImpl × String)), st2)

/-- Embedding of `publish_resolver._import_resolver` with its four
resolution cases.  Note: the purge key is computed as
`dotted.split(".", 1)[0]` on the full reference, before any colon is
split off — for a reference like `mod:fn` with no dot before the colon
the key is the literal `mod:fn`, which matches no cache entry. -/
def importResolver (provides : String → String → Bool)
    (hasFunc : String → ModImpl → Bool) (brsRoot : String) (st0 : SysState)
    (dotted0 : String) : Except PyErr (ModImpl × String) × SysState :=
  let dotted := pyStrip dotted0
  let topPkg := firstComponent dotted
  let st1 := { st0 with modules := purgeModulePfx topPkg st0.modules }
  let added := !(st1.path.contains brsRoot)
  let st2 := if added then { st1 with path := brsRoot :: st1.path } else st1
  let (res2, st3) :=
    match splitOnce dotted ":" with
    | some p =>
        let moduleName := pyStrip p.1
        let funcName := pyStrip p.2
        let (res, st) := importModule provides st2 moduleName
        (((match res with
          | .ok impl =>
              if hasFunc funcName impl then .ok (impl, funcName)
              else .error (.attributeError funcName)
          | .error e => .error e) : Except PyErr (ModImpl × String)), st)
    | Option.none =>
        let (res, stA) := importModule provides st2 dotted
        (match res with
        | .ok impl =>
            if hasFunc "main" impl then (.ok (impl, "main"), stA)
            else fallbackResolver provides hasFunc stA dotted
        | .error _ => fallbackResolver provides hasFunc stA dotted)
  let st4 := if added then { st3 with path := st3.path.erase brsRoot } else st3
  (res2, st4)

/-- Does the purge key cover a module name (so that the purge removed any
cached entry for it)? -/
def coveredByPfx (pfx m : String) : Bool :=
  m == pfx || (pfx ++ ".").data.isPrefixOf m.data

/-- Interpreter state for the C5 counterexample: the previous bundle's
module `foo` is still cached from an earlier load out of `oldroot`. -/
def c5staleState : SysState :=
  { modules := [("foo", { root := "oldroot", loadedAt := 0 })], path := [], time := 5 }

/-- Filesystem kind of a path, for the `exists` validation of step 3b of
`template_service.render`. -/
inductive PathKind where
  | file
  | dir
  deriving DecidableEq, Repr

/-- Field names of the `Descriptor` dataclass
(`descriptor_loader.Descriptor`).  `dataclasses.replace` accepts keyword
arguments only among these; there is no `parent_directory` field. -/
def descriptorFieldNames : List String :=
  ["id", "description", "params", "render_into", "render_files", "run_entry",
   "required_templates", "publish", "hooks", "tools_required", "tools_optional"]

/-- Python call semantics of `dataclasses.replace(desc, **changes)` on a
`Descriptor`: a keyword naming no dataclass field raises `TypeError`. -/
def dataclassReplaceDescriptor (changes : List String) : Except PyErr Unit :=
  if changes.all (fun k => descriptorFieldNames.contains k) then .ok ()
  else .error (.typeError "replace() got an unexpected keyword argument")

/-- Parameter names of `context.build`, in declaration order. -/
def buildCtxParams : List String :=
  ["project", "tpl_id", "params", "brs_config", "cwd"]

/-- Python call semantics of the `build_ctx(...)` call sites in
`template_service`: all call sites pass five positional arguments, which
bind every parameter of `context.build`, so a keyword argument is
accepted only if it names a parameter beyond the five — there is none,
hence any keyword (such as `source_id`) raises `TypeError`. -/
def callBuildCtx (kwargs : List String) : Except PyErr Unit :=
  if kwargs.all (fun k => (buildCtxParams.drop 5).contains k) then .ok ()
  else .error (.typeError "build() got an unexpected keyword argument")

/-- Embedding of `template_service._parse_cli_params`: `KEY=VALUE` pairs
into an insertion-ordered dict of strings; a pair without `=` raises
`ValueError`. -/
def parseCliParams : List String → List (String × Val) →
    Except PyErr (List (String × Val))
  | [], acc => .ok acc
  | pair :: rest, acc =>
      match splitOnce pair "=" with
      | some p => parseCliParams rest (dSet acc (pyStrip p.1) (.str (pyStrip p.2)))
      | Option.none =>
          .error (.valueError
            ("Invalid --param " ++ sq ++ pair ++ sq ++ ". Expected KEY=VALUE."))

/-- The satisfied-dependency ids of a project
(`t.get("source_template") or t.get("id")` per entry). -/
def depHave (project : Project) : List String :=
  project.templates.map (fun t =>
    match t.source_template with
    | some s => if s != "" then s else t.id
    | Option.none => t.id)

/-- Embedding of `template_service._check_dependencies`: required
template ids with no matching project entry. -/
def checkDependencies (desc : Descriptor) (project : Project) : List Val :=
  desc.required_templates.filter (fun dep =>
    !((depHave project).any (fun h =>
        match dep with
        | .str s => s == h
        | _ => false)))

/-- Step 3b of `template_service.render`: collect, in declaration order,
every `exists`-declared parameter whose resolved path has the wrong kind,
as `name -> path` strings.  Relative paths resolve against the given
base; `expanduser` is modelled as the identity (no `~` paths arise in the
claims). -/
def validateParamPaths (desc : Descriptor) (finalParams : List (String × Val))
    (base : String) (pathKind : String → Option PathKind) : List String :=
  desc.params.foldl
    (fun acc kv =>
      match kv.2.existsKind with
      | Option.none => acc
      | some kind =>
          match dGet finalParams kv.1 with
          | some (.str v) =>
              if pyStrip v == "" then acc
              else
                let p := resolvePath
                  (match v.data with
                   | '/' :: _ => v
                   | _ => pathConcat base v)
                let bad : Bool :=
                  if kind == "file" then
                    (match pathKind p with
                     | some .file => false
                     | _ => true)
                  else if kind == "dir" then
                    (match pathKind p with
                     | some .dir => false
                     | _ => true)
                  else if kind == "any" then
                    (match pathKind p with
                     | some _ => false
                     | Option.none => true)
                  else false
                if bad then acc ++ [kv.1 ++ " -> " ++ p] else acc
          | _ => acc) []

/-- Hook references declared for a lifecycle stage
(`desc.hooks.get(stage)`). -/
def hooksOf (desc : Descriptor) (stage : String) : List String :=
  match desc.hooks with
  | .dict kvs =>
      (match dGet kvs stage with
      | some (.list xs) => xs.map pyStrVal
      | _ => [])
  | _ => []

/-- Event-level embedding of `hooks_runner.run`: invoke the stage's hook
references in declaration order; a raising hook aborts immediately.
`hookRes` is the oracle for one hook invocation (import plus call). -/
def runHooksFx (hookRes : String → Except PyErr Unit) :
    List String → List FxEvent → (List FxEvent × Except PyErr Unit)
  | [], acc => (acc, .ok ())
  | h :: rest, acc =>
      match hookRes h with
      | .ok _ => runHooksFx hookRes rest (acc ++ [.runHook h])
      | .error e => (acc, .error e)

/-- Continuation of `template_service.render` in ad-hoc mode after the
`dataclasses.replace` and `build_ctx` calls (unreachable on the current
code because both calls raise; embedded for completeness): run the
pre_render hooks, render with `render_into` overridden to `"."`, return
the plan when dry, else run the post_render hooks and write the ad-hoc
meta record. -/
def renderAdhocCont (brsPaths : BrsPaths) (pathExistsFx fileExistsFx : String → Bool)
    (tplRender : String → Except PyErr String) (hookRes : String → Except PyErr Unit)
    (brsTree : List (String × CtxTree)) (desc : Descriptor) (instanceId : String)
    (finalParams : List (String × Val)) (targetCwd : String) (dry : Bool)
    (fx0 : List FxEvent) : List FxEvent × Except PyErr (List PlanItem) :=
  let ctx := build Option.none instanceId finalParams brsTree targetCwd
  let descEff := { desc with render_into := "." }
  match runHooksFx hookRes (hooksOf desc "pre_render") fx0 with
  | (fx1, .error e) => (fx1, .error e)
  | (fx1, .ok _) =>
      let pr := renderTpl brsPaths pathExistsFx fileExistsFx tplRender descEff ctx dry
      match pr.1 with
      | .error e => (fx1 ++ pr.2, .error e)
      | .ok plan =>
          if dry then (fx1 ++ pr.2, .ok plan)
          else
            match runHooksFx hookRes (hooksOf desc "post_render") (fx1 ++ pr.2) with
            | (fx2, .error e) => (fx2, .error e)
            | (fx2, .ok _) =>
                (fx2 ++ [.saveDoc (pathConcat targetCwd "bpm.meta.yaml")], .ok plan)

/-- Continuation of `template_service.render` in project mode after the
`build_ctx` call (unreachable on the current code; embedded for
completeness): pre_render hooks, render, dry return, post_render hooks,
template-entry update and project save. -/
def renderProjectCont (brsPaths : BrsPaths) (pathExistsFx fileExistsFx : String → Bool)
    (tplRender : String → Except PyErr String) (hookRes : String → Except PyErr Unit)
    (brsTree : List (String × CtxTree)) (desc : Descriptor) (project : Project)
    (instanceId : String) (finalParams : List (String × Val)) (projectDir : String)
    (dry : Bool) : List FxEvent × Except PyErr (List PlanItem) :=
  let ctx := build (some project) instanceId finalParams brsTree projectDir
  match runHooksFx hookRes (hooksOf desc "pre_render") [] with
  | (fx1, .error e) => (fx1, .error e)
  | (fx1, .ok _) =>
      let pr := renderTpl brsPaths pathExistsFx fileExistsFx tplRender desc ctx dry
      match pr.1 with
      | .error e => (fx1 ++ pr.2, .error e)
      | .ok plan =>
          if dry then (fx1 ++ pr.2, .ok plan)
          else
            match runHooksFx hookRes (hooksOf desc "post_render") (fx1 ++ pr.2) with
            | (fx2, .error e) => (fx2, .error e)
            | (fx2, .ok _) =>
                (fx2 ++ [.saveDoc (pathConcat projectDir "project.yaml")], .ok plan)

/-- Instance id of a render call: the stripped alias when a truthy alias
is supplied, else the template id. -/
def instanceIdOf (templateId : String) (aliasArg : Option String) : String :=
  match aliasArg with
  | some a => if a != "" then pyStrip a else templateId
  | Option.none => templateId

/-- The minimal ctx-like interpolation tree `render` builds for parameter
resolution: project name (empty in ad-hoc mode), instance id, empty
params. -/
def renderCtxLike (projName instanceId : String) : CtxTree :=
  .node true
    [("project", .node false [("name", .val (.str projName))]),
     ("template", .node false [("id", .val (.str instanceId))]),
     ("params", .node true [])]

/-- Embedding of `template_service.render`.  Collaborators out of scope
are oracles: `cfgRes` (`brs_loader.load_config`), `descRes`
(`descriptor_loader.load`), `projRes` (`project_io.load`), `pathKind`
(filesystem kinds for step 3b), `processCwd` (`Path.cwd()`), the renderer
oracles of `renderTpl`, `hookRes` (hook invocation results), `brsTree`
(the config dict passed into the context).  Returns the ordered effects
performed and the outcome (the plan on success).  `_hostify_params` and
the persisted document contents are pure post-render computations whose
atomicity is modelled separately (`safeDumpYaml`); here persistence shows
up as a `saveDoc` event. -/
def renderService (cfgRes : Except PyErr Unit) (descRes : Except PyErr Descriptor)
    (projRes : Except PyErr Project) (pathKind : String → Option PathKind)
    (processCwd : String) (brsPaths : BrsPaths)
    (pathExistsFx fileExistsFx : String → Bool)
    (tplRender : String → Except PyErr String) (hookRes : String → Except PyErr Unit)
    (brsTree : List (String × CtxTree)) (projectDir templateId : String)
    (aliasArg : Option String) (paramsKv : List String) (dry : Bool)
    (adhocOut : Option String) : List FxEvent × Except PyErr (List PlanItem) :=
  match cfgRes with
  | .error e => ([], .error e)
  | .ok _ =>
  match descRes with
  | .error e => ([], .error e)
  | .ok desc =>
  let instanceId := instanceIdOf templateId aliasArg
  let projLoad : Except PyErr (Option Project) :=
    match adhocOut with
    | some _ => .ok Option.none
    | Option.none => projRes.map some
  match projLoad with
  | .error e => ([], .error e)
  | .ok project =>
  let depCheck : Except PyErr Unit :=
    match adhocOut, project with
    | Option.none, some p =>
        let missing := checkDependencies desc p
        if missing.isEmpty then .ok ()
        else
          .error (.valueError ("Missing required templates: "
            ++ String.intercalate ", " (missing.map pyStrVal)))
    | _, _ => .ok ()
  match depCheck with
  | .error e => ([], .error e)
  | .ok _ =>
  match parseCliParams paramsKv [] with
  | .error e => ([], .error e)
  | .ok cliParams =>
  let ctxLike := renderCtxLike
    (match project with | some p => p.name | Option.none => "") instanceId
  match resolve desc cliParams project ctxLike with
  | .error e => ([], .error e)
  | .ok finalParams =>
  let base := match adhocOut with | some _ => processCwd | Option.none => projectDir
  let missingPaths := validateParamPaths desc finalParams base pathKind
  if !missingPaths.isEmpty then
    ([], .error (.valueError ("Input path(s) not found or wrong type: "
      ++ String.intercalate ", " missingPaths)))
  else
    match adhocOut, project with
    | some outRaw, _ =>
        let targetCwd := resolvePath outRaw
        let fx0 := [FxEvent.mkdirDir targetCwd]
        (match dataclassReplaceDescriptor ["render_into", "parent_directory"] with
        | .error e => (fx0, .error e)
        | .ok _ =>
            match callBuildCtx ["source_id"] with
            | .error e => (fx0, .error e)
            | .ok _ =>
                renderAdhocCont brsPaths pathExistsFx fileExistsFx tplRender hookRes
                  brsTree desc instanceId finalParams targetCwd dry fx0)
    | Option.none, some p =>
        (match callBuildCtx ["source_id"] with
        | .error e => ([], .error e)
        | .ok _ =>
            renderProjectCont brsPaths pathExistsFx fileExistsFx tplRender hookRes
              brsTree desc p instanceId finalParams projectDir dry)
    | Option.none, Option.none =>
        -- not reachable: project mode always loaded a project above
        ([], .error (.typeError "unreachable"))

/-- Source template id of a project entry
(`entry.get("source_template") or template_id`). -/
def sourceIdOf (entry : TemplateEntry) (templateId : String) : String :=
  match entry.source_template with
  | some s => if s != "" then s else templateId
  | Option.none => templateId

/-- Embedding of `template_service.run`.  `descResOf` loads a descriptor
by id, `metaRes` is the parsed ad-hoc meta document, `matFn` is
`_materialize_params` (a pure path rewriting), `procRes` the subprocess
result by working directory.  The continuation after the `build_ctx` call
is unreachable on the current code (the call raises `TypeError`); it is
embedded at event level. -/
def runService (cfgRes : Except PyErr Unit)
    (descResOf : String → Except PyErr Descriptor)
    (projRes : Except PyErr Project)
    (metaRes : Except PyErr (List (String × Val)))
    (matFn : List (String × Val) → List (String × Val))
    (hookRes : String → Except PyErr Unit)
    (procRes : String → Except PyErr Unit)
    (projectDir templateId : String) (adhocOut : Option String) :
    List FxEvent × Except PyErr Unit :=
  match cfgRes with
  | .error e => ([], .error e)
  | .ok _ =>
  match adhocOut with
  | some outRaw =>
      match descResOf templateId with
      | .error e => ([], .error e)
      | .ok desc =>
      let outDir := resolvePath outRaw
      match metaRes with
      | .error e => ([], .error e)
      | .ok meta =>
      let paramsRaw :=
        match dGet meta "params" with
        | some (.dict kvs) => kvs
        | _ => []
      let _params := matFn paramsRaw
      match callBuildCtx ["source_id"] with
      | .error e => ([], .error e)
      | .ok _ =>
          (match runHooksFx hookRes (hooksOf desc "pre_run") [] with
          | (fx1, .error e) => (fx1, .error e)
          | (fx1, .ok _) =>
              match procRes outDir with
              | .error e => (fx1, .error e)
              | .ok _ =>
                  match runHooksFx hookRes (hooksOf desc "post_run")
                      (fx1 ++ [.runProc outDir]) with
                  | (fx2, .error e) => (fx2, .error e)
                  | (fx2, .ok _) =>
                      (fx2 ++ [.saveDoc (pathConcat outDir "bpm.meta.yaml")], .ok ()))
  | Option.none =>
      match projRes with
      | .error e => ([], .error e)
      | .ok project =>
      match project.templates.find? (fun t => t.id == templateId) with
      | Option.none =>
          ([], .error (.valueError
            ("Template " ++ sq ++ templateId ++ sq ++ " not found in project.yaml")))
      | some entry =>
      match descResOf (sourceIdOf entry templateId) with
      | .error e => ([], .error e)
      | .ok desc =>
      let _params := matFn entry.params
      match callBuildCtx ["source_id"] with
      | .error e => ([], .error e)
      | .ok _ =>
          (match runHooksFx hookRes (hooksOf desc "pre_run") [] with
          | (fx1, .error e) => (fx1, .error e)
          | (fx1, .ok _) =>
              match procRes projectDir with
              | .error e => (fx1, .error e)
              | .ok _ =>
                  match runHooksFx hookRes (hooksOf desc "post_run")
                      (fx1 ++ [.runProc projectDir]) with
                  | (fx2, .error e) => (fx2, .error e)
                  | (fx2, .ok _) =>
                      (fx2 ++ [.saveDoc (pathConcat projectDir "project.yaml")], .ok ()))

/-- Embedding of `template_service.publish`.  `pubRes` stands for the
whole `publish_resolver.resolve_all` pass (unreachable on the current
code because the preceding `build_ctx` call raises `TypeError`). -/
def publishService (cfgRes : Except PyErr Unit)
    (descResOf : String → Except PyErr Descriptor)
    (projRes : Except PyErr Project)
    (metaRes : Except PyErr (List (String × Val)))
    (matFn : List (String × Val) → List (String × Val))
    (pubRes : Except PyErr (List (String × Val)))
    (projectDir templateId : String) (adhocOut : Option String) :
    List FxEvent × Except PyErr (List (String × Val)) :=
  match cfgRes with
  | .error e => ([], .error e)
  | .ok _ =>
  match adhocOut with
  | some outRaw =>
      match descResOf templateId with
      | .error e => ([], .error e)
      | .ok _desc =>
      let outDir := resolvePath outRaw
      match metaRes with
      | .error e => ([], .error e)
      | .ok meta =>
      let paramsRaw :=
        match dGet meta "params" with
        | some (.dict kvs) => kvs
        | _ => []
      let _params := matFn paramsRaw
      match callBuildCtx ["source_id"] with
      | .error e => ([], .error e)
      | .ok _ =>
          (match pubRes with
          | .error e => ([], .error e)
          | .ok pub => ([.saveDoc (pathConcat outDir "bpm.meta.yaml")], .ok pub))
  | Option.none =>
      match projRes with
      | .error e => ([], .error e)
      | .ok project =>
      match project.templates.find? (fun t => t.id == templateId) with
      | Option.none =>
          ([], .error (.valueError
            ("Template " ++ sq ++ templateId ++ sq ++ " not found in project.yaml")))
      | some entry =>
      match descResOf (sourceIdOf entry templateId) with
      | .error e => ([], .error e)
      | .ok _desc =>
      let _params := matFn entry.params
      match callBuildCtx ["source_id"] with
      | .error e => ([], .error e)
      | .ok _ =>
          (match pubRes with
          | .error e => ([], .error e)
          | .ok pub => ([.saveDoc (pathConcat projectDir "project.yaml")], .ok pub))

/-- Python `data.get("id") != template_id` (negated): equality of an
optional YAML value against a `str`.  Only a string value can compare
equal to a string; an absent key (`None`) or a non-string value is
unequal. -/
def pyEqStr (v : Option Val) (s : String) : Bool :=
  match v with
  | some (.str t) => t == s
  | _ => false

/-- `str()` of an optional value, as an f-string renders it: an absent
key prints as `None`. -/
def pyStrOpt : Option Val → String
  | some w => pyStrVal w
  | Option.none => "None"

/-- `(data.get(key) or \x7b\x7d).items()` of `descriptor_loader.load`:
a falsy section is the empty mapping; a truthy non-mapping value has no
`.items` and raises AttributeError. -/
def yamlSectionItems (data : List (String × Val)) (key : String) :
    Except PyErr (List (String × Val)) :=
  match pyOr ((dGet data key).getD .none) (.dict []) with
  | .dict kvs => .ok kvs
  | _ => .error (.attributeError "items")

/-- `data.get(key) or \x7b\x7d` followed by `.get(...)` on the result:
a falsy section is the empty mapping; a truthy non-mapping value has no
`.get` and raises AttributeError. -/
def yamlSectionMap (data : List (String × Val)) (key : String) :
    Except PyErr (List (String × Val)) :=
  match pyOr ((dGet data key).getD .none) (.dict []) with
  | .dict kvs => .ok kvs
  | _ => .error (.attributeError "get")

/-- Python iteration over a value (`for item in v` / `list(v)`): lists
yield their elements, strings their characters, mappings their keys;
any other value is not iterable. -/
def pyIter : Val → Except PyErr (List Val)
  | .list xs => .ok xs
  | .str s => .ok (s.data.map (fun c => .str (String.mk [c])))
  | .dict kvs => .ok (kvs.map (fun kv => .str kv.1))
  | _ => .error (.typeError "object is not iterable")

/-- The `exists` normalisation of one `params` entry in
`descriptor_loader.load`: the bool `True` becomes `any`; a string is
lowercased and must be one of `file`, `dir`, `any`; otherwise a truthy
legacy `must_exist` becomes `any`, else no check.  The error message
carries the original (unlowered) string. -/
def parseExistsKind (k : String) (kvs : List (String × Val)) :
    Except PyErr (Option String) :=
  match dGet kvs "exists" with
  | some (.bool true) => .ok (some "any")
  | some (.str s) =>
      if strToLower s == "file" || strToLower s == "dir" || strToLower s == "any"
      then .ok (some (strToLower s))
      else .error (.valueError ("Invalid exists value for param " ++ sq ++ k
          ++ sq ++ ": " ++ s))
  | _ =>
      if pyTruthy ((dGet kvs "must_exist").getD .none) then .ok (some "any")
      else .ok Option.none

/-- Body of the `params` loop of `descriptor_loader.load`: build the
`ParamSpec` for key `k` from its declaration `v`.  A non-mapping
declaration has no `.get` and raises AttributeError. -/
def parseParamSpec (k : String) (v : Val) : Except PyErr ParamSpec :=
  match v with
  | .dict kvs =>
      match parseExistsKind k kvs with
      | .error e => .error e
      | .ok ek =>
          .ok { name := k,
                type := pyStrVal ((dGet kvs "type").getD (.str "str")),
                cli := (dGet kvs "cli").getD .none,
                required := pyTruthy ((dGet kvs "required").getD (.bool false)),
                default := (dGet kvs "default").getD .none,
                existsKind := ek,
                description := (dGet kvs "description").getD .none }
  | _ => .error (.attributeError "get")

/-- The `params` loop of `descriptor_loader.load`: each entry is
normalised and assigned into the accumulating dict in order. -/
def parseParams : List (String × Val) → List (String × ParamSpec) →
    Except PyErr (List (String × ParamSpec))
  | [], acc => .ok acc
  | (k, v) :: rest, acc =>
      match parseParamSpec k v with
      | .error e => .error e
      | .ok ps => parseParams rest (dSet acc k ps)

/-- One `render.files` entry of `descriptor_loader.load`: the string
form `src -> dst` (split once on the arrow, both sides stripped) or the
explicit mapping form with `src`/`dst` keys; anything else is a
ValueError. -/
def parseRenderFile (item : Val) : Except PyErr (Val × Val) :=
  match item with
  | .str s =>
      match splitOnce s "->" with
      | some p => .ok (.str (pyStrip p.1), .str (pyStrip p.2))
      | Option.none => .error (.valueError ("Invalid render.files entry: " ++ s))
  | .dict kvs => .ok ((dGet kvs "src").getD .none, (dGet kvs "dst").getD .none)
  | item => .error (.valueError ("Invalid render.files entry: " ++ pyStrVal item))

/-- The `render.files` loop of `descriptor_loader.load`. -/
def parseRenderFiles : List Val → Except PyErr (List (Val × Val))
  | [] => .ok []
  | item :: rest =>
      match parseRenderFile item with
      | .error e => .error e
      | .ok p =>
          match parseRenderFiles rest with
          | .error e => .error e
          | .ok ps => .ok (p :: ps)

/-- The optional run entry of `descriptor_loader.load`: read only when
the `run` key is present and not `None`; a non-mapping value has no
`.get` and raises AttributeError. -/
def parseRunEntry (data : List (String × Val)) : Except PyErr Val :=
  match dGet data "run" with
  | some (.dict kvs) => .ok ((dGet kvs "entry").getD .none)
  | some .none => .ok .none
  | some _ => .error (.attributeError "get")
  | Option.none => .ok .none

/-- The dependency value and tools lists of `descriptor_loader.load`:
`req` starts as `required_templates` or legacy `requires` or the empty
list; a mapping-form `tools` section rebinds the same `req` variable to
its `required` entry, so that entry also becomes `required_templates`
in the constructed descriptor (a quirk of the source preserved here). -/
def parseReqTools (data : List (String × Val)) : Val × List String × List String :=
  let req := pyOr ((dGet data "required_templates").getD .none)
      (pyOr ((dGet data "requires").getD .none) (.list []))
  match dGet data "tools" with
  | some (.list xs) => (req, xs.map pyStrVal, [])
  | some (.dict kvs) =>
      let req2 := pyOr ((dGet kvs "required").getD .none) (.list [])
      let opt := pyOr ((dGet kvs "optional").getD .none) (.list [])
      (req2,
       (match req2 with | .list xs => xs.map pyStrVal | _ => []),
       (match opt with | .list xs => xs.map pyStrVal | _ => []))
  | _ => (req, [], [])

/-- Embedding of `descriptor_loader.load` applied to the already parsed
YAML document `data` of the descriptor file for the requested
`template_id` (locating and parsing the file itself is out of scope).
String-typed descriptor fields hold the `str()` form of the stored
value. -/
def loadDescriptor (template_id : String) (data : List (String × Val)) :
    Except PyErr Descriptor :=
  if pyEqStr (dGet data "id") template_id then
    match yamlSectionItems data "params" with
    | .error e => .error e
    | .ok pitems =>
        match parseParams pitems [] with
        | .error e => .error e
        | .ok params =>
            match yamlSectionMap data "render" with
            | .error e => .error e
            | .ok render =>
                match pyIter (pyOr ((dGet render "files").getD .none) (.list [])) with
                | .error e => .error e
                | .ok filesSpec =>
                    match parseRenderFiles filesSpec with
                    | .error e => .error e
                    | .ok renderFiles =>
                        match parseRunEntry data with
                        | .error e => .error e
                        | .ok runEntry =>
                            match pyIter (parseReqTools data).1 with
                            | .error e => .error e
                            | .ok reqList =>
                                .ok { id := template_id,
                                      description := (dGet data "description").getD .none,
                                      params := params,
                                      render_into := pyStrVal (pyOr
                                        ((dGet render "into").getD .none)
                                        (.str "$\x7bctx.project.name\x7d/$\x7bctx.template.id\x7d/")),
                                      render_files := renderFiles,
                                      run_entry := runEntry,
                                      required_templates := reqList,
                                      publish := pyOr ((dGet data "publish").getD .none) (.dict []),
                                      hooks := pyOr ((dGet data "hooks").getD .none) (.dict []),
                                      tools_required := (parseReqTools data).2.1,
                                      tools_optional := (parseReqTools data).2.2 }
  else
    .error (.valueError ("Descriptor id mismatch: expected " ++ template_id
        ++ ", got " ++ pyStrOpt (dGet data "id")))

/-- Concrete project for the C8 failing input: one rendered template
entry `t1`, status `active`, with a previously published value. -/
def c8project : Project :=
  { name := "P", project_path := "host:/p", status := "active",
    templates := [{ id := "t1", source_template := some "t1", status := "active",
                    params := [("n", .str "1")],
                    published := [("report", .str "old")] }] }

theorem dKeys_cons {α : Type} (k0 : String) (w : α) (tl : List (String × α)) :
    dKeys ((k0, w) :: tl) = k0 :: dKeys tl := rfl

theorem dGet_dSet_self {α : Type} (m : List (String × α)) (k : String) (v : α) :
    dGet (dSet m k v) k = some v := by
  induction m with
  | nil => simp [dGet, dSet]
  | cons hd tl ih =>
      obtain ⟨k0, w⟩ := hd
      by_cases h : k0 = k <;> simp [dGet, dSet, h, ih]

theorem dGet_dSet_ne {α : Type} (m : List (String × α)) (k k' : String) (v : α)
    (h : k ≠ k') : dGet (dSet m k v) k' = dGet m k' := by
  induction m with
  | nil => simp [dGet, dSet, h]
  | cons hd tl ih =>
      obtain ⟨k0, w⟩ := hd
      by_cases h0 : k0 = k
      · subst h0
        simp [dGet, dSet, h]
      · simp [dGet, dSet, h0, ih]

theorem dKeys_dSet_of_mem {α : Type} (m : List (String × α)) (k : String) (v : α)
    (h : k ∈ dKeys m) : dKeys (dSet m k v) = dKeys m := by
  induction m with
  | nil => simp [dKeys] at h
  | cons hd tl ih =>
      obtain ⟨k0, w⟩ := hd
      rw [dKeys_cons] at h
      by_cases h0 : k0 = k
      · subst h0
        simp [dKeys_cons, dSet]
      · rcases List.mem_cons.mp h with h | h
        · exact absurd h.symm h0
        · simp [dSet, h0, dKeys_cons, ih h]

theorem dKeys_dSet_of_not_mem {α : Type} (m : List (String × α)) (k : String) (v : α)
    (h : k ∉ dKeys m) : dKeys (dSet m k v) = dKeys m ++ [k] := by
  induction m with
  | nil => simp [dKeys, dSet]
  | cons hd tl ih =>
      obtain ⟨k0, w⟩ := hd
      rw [dKeys_cons] at h
      have h1 : k0 ≠ k := fun e => h (e ▸ List.mem_cons_self _ _)
      have h2 : k ∉ dKeys tl := fun e => h (List.mem_cons_of_mem _ e)
      simp [dSet, h1, dKeys_cons, ih h2]

theorem dKeys_nodup_dSet {α : Type} (m : List (String × α)) (k : String) (v : α)
    (h : (dKeys m).Nodup) : (dKeys (dSet m k v)).Nodup := by
  by_cases hk : k ∈ dKeys m
  · rwa [dKeys_dSet_of_mem m k v hk]
  · rw [dKeys_dSet_of_not_mem m k v hk]
    refine List.Nodup.append h (List.nodup_singleton k) ?_
    intro a ha hb
    rw [List.mem_singleton] at hb
    exact hk (hb ▸ ha)

theorem dGet_none_of_not_mem {α : Type} (m : List (String × α)) (k : String)
    (h : k ∉ dKeys m) : dGet m k = Option.none := by
  induction m with
  | nil => rfl
  | cons hd tl ih =>
      obtain ⟨k0, w⟩ := hd
      rw [dKeys_cons] at h
      have h1 : k0 ≠ k := fun e => h (e ▸ List.mem_cons_self _ _)
      have h2 : k ∉ dKeys tl := fun e => h (List.mem_cons_of_mem _ e)
      simp [dGet, h1, ih h2]

theorem dGet_isSome_of_mem {α : Type} (m : List (String × α)) (k : String)
    (h : k ∈ dKeys m) : (dGet m k).isSome := by
  induction m with
  | nil => simp [dKeys] at h
  | cons hd tl ih =>
      obtain ⟨k0, w⟩ := hd
      rw [dKeys_cons] at h
      by_cases h0 : k0 = k
      · simp [dGet, h0]
      · rcases List.mem_cons.mp h with h | h
        · exact absurd h.symm h0
        · simp [dGet, h0, ih h]

theorem mem_of_dGet_isSome {α : Type} (m : List (String × α)) (k : String)
    (h : (dGet m k).isSome) : k ∈ dKeys m := by
  by_contra hk
  rw [dGet_none_of_not_mem m k hk] at h
  simp at h

theorem dGet_cons {α : Type} (k0 : String) (v : α) (rest : List (String × α))
    (k : String) :
    dGet ((k0, v) :: rest) k = if k0 = k then some v else dGet rest k := rfl

theorem storedFold_get_not_mem (b params : List (String × Val)) (k : String)
    (h : k ∉ dKeys params) : dGet (storedFold b params) k = dGet b k := by
  induction params generalizing b with
  | nil => rfl
  | cons kv rest ih =>
      obtain ⟨k0, v⟩ := kv
      rw [dKeys_cons] at h
      have h1 : k0 ≠ k := fun e => h (e ▸ List.mem_cons_self _ _)
      have h2 : k ∉ dKeys rest := fun e => h (List.mem_cons_of_mem _ e)
      show dGet (storedFold (dSet b k0 v) rest) k = dGet b k
      rw [ih _ h2, dGet_dSet_ne _ _ _ _ h1]

theorem storedFold_get_unique (b params : List (String × Val)) (k : String) (v : Val)
    (hnd : (dKeys params).Nodup) (hget : dGet params k = some v) :
    dGet (storedFold b params) k = some v := by
  induction params generalizing b with
  | nil => simp [dGet] at hget
  | cons kv rest ih =>
      obtain ⟨k0, w⟩ := kv
      rw [dKeys_cons, List.nodup_cons] at hnd
      by_cases h0 : k0 = k
      · subst h0
        rw [dGet_cons, if_pos rfl] at hget
        injection hget with hv
        show dGet (storedFold (dSet b k0 w) rest) k0 = some v
        rw [storedFold_get_not_mem _ _ _ hnd.1, dGet_dSet_self, hv]
      · rw [dGet_cons, if_neg h0] at hget
        show dGet (storedFold (dSet b k0 w) rest) k = some v
        exact ih _ hnd.2 hget

theorem storedFold_nodup (b params : List (String × Val))
    (h : (dKeys b).Nodup) : (dKeys (storedFold b params)).Nodup := by
  induction params generalizing b with
  | nil => exact h
  | cons kv rest ih =>
      exact ih _ (dKeys_nodup_dSet _ _ _ h)

theorem applyCliFold_get_not_mem (desc : Descriptor) (cli b : List (String × Val))
    (k : String) (h : k ∉ dKeys cli) :
    dGet (applyCliFold desc cli b) k = dGet b k := by
  induction cli generalizing b with
  | nil => rfl
  | cons kv rest ih =>
      obtain ⟨k0, v⟩ := kv
      rw [dKeys_cons] at h
      have h1 : k0 ≠ k := fun e => h (e ▸ List.mem_cons_self _ _)
      have h2 : k ∉ dKeys rest := fun e => h (List.mem_cons_of_mem _ e)
      show dGet (applyCliFold desc rest
        (if (dGet desc.params k0).isSome then dSet b k0 v else b)) k = dGet b k
      by_cases hd : (dGet desc.params k0).isSome
      · rw [if_pos hd, ih _ h2, dGet_dSet_ne _ _ _ _ h1]
      · rw [if_neg hd, ih _ h2]

theorem applyCli_get_not_mem (desc : Descriptor) (cli b : List (String × Val))
    (k : String) (h : k ∉ dKeys cli) :
    dGet (applyCli desc cli b) k = dGet b k :=
  applyCliFold_get_not_mem desc cli b k h

theorem applyCli_get_unique (desc : Descriptor) (cli b : List (String × Val))
    (k : String) (v : Val) (hnd : (dKeys cli).Nodup) (hget : dGet cli k = some v)
    (hdecl : (dGet desc.params k).isSome) :
    dGet (applyCli desc cli b) k = some v := by
  unfold applyCli
  induction cli generalizing b with
  | nil => simp [dGet] at hget
  | cons kv rest ih =>
      obtain ⟨k0, w⟩ := kv
      rw [dKeys_cons, List.nodup_cons] at hnd
      by_cases h0 : k0 = k
      · subst h0
        rw [dGet_cons, if_pos rfl] at hget
        injection hget with hv
        show dGet (applyCliFold desc rest
          (if (dGet desc.params k0).isSome then dSet b k0 w else b)) k0 = some v
        rw [if_pos hdecl, applyCliFold_get_not_mem _ _ _ _ hnd.1, dGet_dSet_self, hv]
      · rw [dGet_cons, if_neg h0] at hget
        show dGet (applyCliFold desc rest
          (if (dGet desc.params k0).isSome then dSet b k0 w else b)) k = some v
        by_cases hd : (dGet desc.params k0).isSome
        · rw [if_pos hd]
          exact ih _ hnd.2 hget
        · rw [if_neg hd]
          exact ih _ hnd.2 hget

theorem applyCliFold_nodup (desc : Descriptor) (cli b : List (String × Val))
    (h : (dKeys b).Nodup) : (dKeys (applyCliFold desc cli b)).Nodup := by
  induction cli generalizing b with
  | nil => exact h
  | cons kv rest ih =>
      show (dKeys (applyCliFold desc rest
        (if (dGet desc.params kv.1).isSome then dSet b kv.1 kv.2 else b))).Nodup
      by_cases hd : (dGet desc.params kv.1).isSome
      · rw [if_pos hd]
        exact ih _ (dKeys_nodup_dSet _ _ _ h)
      · rw [if_neg hd]
        exact ih _ h

theorem applyDefaultsFold_get_not_mem (l : List (String × ParamSpec))
    (b : List (String × Val)) (k : String) (h : k ∉ dKeys l) :
    dGet (applyDefaultsFold l b) k = dGet b k := by
  induction l generalizing b with
  | nil => rfl
  | cons kv rest ih =>
      obtain ⟨k0, sp⟩ := kv
      rw [dKeys_cons] at h
      have h1 : k0 ≠ k := fun e => h (e ▸ List.mem_cons_self _ _)
      have h2 : k ∉ dKeys rest := fun e => h (List.mem_cons_of_mem _ e)
      show dGet (applyDefaultsFold rest
        (if Val.isNoneV sp.default then b else dSet b k0 sp.default)) k = dGet b k
      by_cases hd : Val.isNoneV sp.default
      · rw [if_pos hd, ih _ h2]
      · rw [if_neg hd, ih _ h2, dGet_dSet_ne _ _ _ _ h1]

theorem applyDefaultsFold_get_unique (l : List (String × ParamSpec))
    (b : List (String × Val)) (k : String) (spec : ParamSpec)
    (hnd : (dKeys l).Nodup) (hget : dGet l k = some spec)
    (hdef : Val.isNoneV spec.default = false) :
    dGet (applyDefaultsFold l b) k = some spec.default := by
  induction l generalizing b with
  | nil => simp [dGet] at hget
  | cons kv rest ih =>
      obtain ⟨k0, sp⟩ := kv
      rw [dKeys_cons, List.nodup_cons] at hnd
      by_cases h0 : k0 = k
      · subst h0
        rw [dGet_cons, if_pos rfl] at hget
        injection hget with hv
        show dGet (applyDefaultsFold rest
          (if Val.isNoneV sp.default then b else dSet b k0 sp.default)) k0
          = some spec.default
        rw [hv, if_neg (by rw [hdef]; exact Bool.false_ne_true)]
        rw [applyDefaultsFold_get_not_mem _ _ _ hnd.1, dGet_dSet_self]
      · rw [dGet_cons, if_neg h0] at hget
        show dGet (applyDefaultsFold rest
          (if Val.isNoneV sp.default then b else dSet b k0 sp.default)) k
          = some spec.default
        by_cases hd : Val.isNoneV sp.default
        · rw [if_pos hd]
          exact ih _ hnd.2 hget
        · rw [if_neg hd]
          exact ih _ hnd.2 hget

theorem applyDefaults_get_unique (desc : Descriptor) (k : String) (spec : ParamSpec)
    (hnd : (dKeys desc.params).Nodup) (hget : dGet desc.params k = some spec)
    (hdef : Val.isNoneV spec.default = false) :
    dGet (applyDefaults desc) k = some spec.default :=
  applyDefaultsFold_get_unique desc.params [] k spec hnd hget hdef

theorem applyDefaultsFold_nodup (l : List (String × ParamSpec))
    (b : List (String × Val)) (h : (dKeys b).Nodup) :
    (dKeys (applyDefaultsFold l b)).Nodup := by
  induction l generalizing b with
  | nil => exact h
  | cons kv rest ih =>
      show (dKeys (applyDefaultsFold rest
        (if Val.isNoneV kv.2.default then b else dSet b kv.1 kv.2.default))).Nodup
      by_cases hd : Val.isNoneV kv.2.default
      · rw [if_pos hd]
        exact ih _ h
      · rw [if_neg hd]
        exact ih _ (dKeys_nodup_dSet _ _ _ h)

theorem applyDefaults_nodup (desc : Descriptor) :
    (dKeys (applyDefaults desc)).Nodup :=
  applyDefaultsFold_nodup desc.params [] List.nodup_nil

theorem applyStoredFold_no_match (desc : Descriptor) (ts : List TemplateEntry)
    (b : List (String × Val)) (h : ∀ t ∈ ts, t.id ≠ desc.id) :
    applyStoredFold desc ts b = b := by
  induction ts generalizing b with
  | nil => rfl
  | cons t rest ih =>
      show applyStoredFold desc rest
        (if t.id = desc.id then storedFold b t.params else b) = b
      rw [if_neg (h t (List.mem_cons_self _ _))]
      exact ih _ (fun u hu => h u (List.mem_cons_of_mem _ hu))

theorem applyStored_single (desc : Descriptor) (p : Project) (t : TemplateEntry)
    (b : List (String × Val)) (k : String) (v : Val)
    (hfilter : p.templates.filter (fun t => t.id == desc.id) = [t])
    (hnd : (dKeys t.params).Nodup) (hget : dGet t.params k = some v) :
    dGet (applyStored desc (some p) b) k = some v := by
  show dGet (applyStoredFold desc p.templates b) k = some v
  revert hfilter
  generalize p.templates = ts
  intro hfilter
  induction ts generalizing b with
  | nil => simp [List.filter] at hfilter
  | cons u rest ih =>
      by_cases hu : u.id = desc.id
      · rw [List.filter_cons_of_pos (by simp [hu])] at hfilter
        injection hfilter with h1 h2
        have hrest : ∀ w ∈ rest, w.id ≠ desc.id := by
          intro w hw
          have := List.filter_eq_nil_iff.mp h2 w hw
          simpa using this
        show dGet (applyStoredFold desc rest
          (if u.id = desc.id then storedFold b u.params else b)) k = some v
        rw [if_pos hu, applyStoredFold_no_match desc rest _ hrest, h1]
        exact storedFold_get_unique _ _ _ _ hnd hget
      · rw [List.filter_cons_of_neg (by simp [hu])] at hfilter
        show dGet (applyStoredFold desc rest
          (if u.id = desc.id then storedFold b u.params else b)) k = some v
        rw [if_neg hu]
        exact ih _ hfilter

theorem applyStoredFold_nodup (desc : Descriptor) (ts : List TemplateEntry)
    (b : List (String × Val)) (h : (dKeys b).Nodup) :
    (dKeys (applyStoredFold desc ts b)).Nodup := by
  induction ts generalizing b with
  | nil => exact h
  | cons t rest ih =>
      show (dKeys (applyStoredFold desc rest
        (if t.id = desc.id then storedFold b t.params else b))).Nodup
      by_cases ht : t.id = desc.id
      · rw [if_pos ht]
        exact ih _ (storedFold_nodup _ _ h)
      · rw [if_neg ht]
        exact ih _ h

theorem applyStored_nodup (desc : Descriptor) (proj : Option Project)
    (b : List (String × Val)) (h : (dKeys b).Nodup) :
    (dKeys (applyStored desc proj b)).Nodup := by
  match proj with
  | Option.none => exact h
  | some p => exact applyStoredFold_nodup desc p.templates b h

theorem mergeTiers_nodup (desc : Descriptor) (cli : List (String × Val))
    (proj : Option Project) : (dKeys (mergeTiers desc cli proj)).Nodup :=
  applyCliFold_nodup _ _ _ (applyStored_nodup _ _ _ (applyDefaults_nodup _))

theorem coerceAll_keys (specs : List (String × ParamSpec)) (b b2 : List (String × Val))
    (h : coerceAll specs b = .ok b2) : dKeys b2 = dKeys b := by
  induction specs generalizing b with
  | nil =>
      injection h with h
      rw [← h]
  | cons kv rest ih =>
      rcases hg : dGet b kv.1 with _ | v
      · simp only [coerceAll, hg] at h
        exact ih _ h
      · rcases hc : coerceOne v kv.2.type with e | v2
        · simp only [coerceAll, hg, hc] at h
          exact Except.noConfusion h
        · simp only [coerceAll, hg, hc] at h
          rw [ih _ h]
          exact dKeys_dSet_of_mem _ _ _
            (mem_of_dGet_isSome _ _ (by rw [hg]; rfl))

theorem coerceAll_get_not_mem (specs : List (String × ParamSpec))
    (b b2 : List (String × Val)) (k : String) (hmem : k ∉ dKeys specs)
    (h : coerceAll specs b = .ok b2) : dGet b2 k = dGet b k := by
  induction specs generalizing b with
  | nil =>
      injection h with h
      rw [← h]
  | cons kv rest ih =>
      rw [dKeys_cons] at hmem
      have h1 : kv.1 ≠ k := fun e => hmem (e ▸ List.mem_cons_self _ _)
      have h2 : k ∉ dKeys rest := fun e => hmem (List.mem_cons_of_mem _ e)
      rcases hg : dGet b kv.1 with _ | v
      · simp only [coerceAll, hg] at h
        exact ih _ h2 h
      · rcases hc : coerceOne v kv.2.type with e | v2
        · simp only [coerceAll, hg, hc] at h
          exact Except.noConfusion h
        · simp only [coerceAll, hg, hc] at h
          rw [ih _ h2 h, dGet_dSet_ne _ _ _ _ h1]

theorem coerceAll_get (specs : List (String × ParamSpec))
    (b b2 : List (String × Val)) (k : String) (spec : ParamSpec) (v : Val)
    (hnd : (dKeys specs).Nodup) (hspec : dGet specs k = some spec)
    (hv : dGet b k = some v) (h : coerceAll specs b = .ok b2) :
    ∃ v2, coerceOne v spec.type = .ok v2 ∧ dGet b2 k = some v2 := by
  induction specs generalizing b with
  | nil => simp [dGet] at hspec
  | cons kv rest ih =>
      obtain ⟨k0, sp⟩ := kv
      rw [dKeys_cons, List.nodup_cons] at hnd
      by_cases h0 : k0 = k
      · subst h0
        rw [dGet_cons, if_pos rfl] at hspec
        injection hspec with hsp
        simp only [coerceAll, hv] at h
        rcases hc : coerceOne v sp.type with e | v2
        · rw [hc] at h
          cases h
        · rw [hc] at h
          refine ⟨v2, by rw [← hsp]; exact hc, ?_⟩
          rw [coerceAll_get_not_mem rest _ _ _ hnd.1 h, dGet_dSet_self]
      · rw [dGet_cons, if_neg h0] at hspec
        rcases hg : dGet b k0 with _ | w
        · simp only [coerceAll, hg] at h
          exact ih _ hnd.2 hspec hv h
        · rcases hc : coerceOne w sp.type with e | w2
          · simp only [coerceAll, hg, hc] at h
            exact Except.noConfusion h
          · simp only [coerceAll, hg, hc] at h
            exact ih _ hnd.2 hspec
              (by rw [dGet_dSet_ne _ _ _ _ h0, hv]) h

theorem interpFold_get_not_mem (ctxLike : CtxTree) (items b b2 : List (String × Val))
    (k : String) (hmem : k ∉ dKeys items)
    (h : interpFold ctxLike items b = .ok b2) : dGet b2 k = dGet b k := by
  induction items generalizing b with
  | nil =>
      injection h with h
      rw [← h]
  | cons kv rest ih =>
      obtain ⟨k0, v0⟩ := kv
      rw [dKeys_cons] at hmem
      have h1 : k0 ≠ k := fun e => hmem (e ▸ List.mem_cons_self _ _)
      have h2 : k ∉ dKeys rest := fun e => hmem (List.mem_cons_of_mem _ e)
      cases v0 with
      | str s =>
          by_cases hm : containsMarker s
          · rcases hi : interpolateCtxString s ctxLike with e | s2
            · simp only [interpFold, hm, if_true, hi] at h
              exact Except.noConfusion h
            · simp only [interpFold, hm, if_true, hi] at h
              rw [ih _ h2 h, dGet_dSet_ne _ _ _ _ h1]
          · simp only [interpFold, hm] at h
            exact ih _ h2 h
      | none => exact ih _ h2 h
      | bool b1 => exact ih _ h2 h
      | int n => exact ih _ h2 h
      | float q lit => exact ih _ h2 h
      | list xs => exact ih _ h2 h
      | dict kvs => exact ih _ h2 h

theorem interpFold_get (ctxLike : CtxTree) (items b b2 : List (String × Val))
    (k : String) (v : Val) (hnd : (dKeys items).Nodup)
    (hitem : dGet items k = some v) (hacc : dGet b k = some v)
    (h : interpFold ctxLike items b = .ok b2) :
    ∃ v2, interpValue ctxLike v = .ok v2 ∧ dGet b2 k = some v2 := by
  induction items generalizing b with
  | nil => simp [dGet] at hitem
  | cons kv rest ih =>
      obtain ⟨k0, v0⟩ := kv
      rw [dKeys_cons, List.nodup_cons] at hnd
      by_cases h0 : k0 = k
      · subst h0
        rw [dGet_cons, if_pos rfl] at hitem
        injection hitem with hv0
        subst hv0
        cases v0 with
        | str s =>
            by_cases hm : containsMarker s
            · rcases hi : interpolateCtxString s ctxLike with e | s2
              · simp only [interpFold, hm, if_true, hi] at h
                exact Except.noConfusion h
              · simp only [interpFold, hm, if_true, hi] at h
                refine ⟨.str s2, by simp [interpValue, hm, hi, Except.map], ?_⟩
                rw [interpFold_get_not_mem _ rest _ _ _ hnd.1 h, dGet_dSet_self]
            · simp only [interpFold, hm] at h
              refine ⟨.str s, by simp [interpValue, hm], ?_⟩
              rw [interpFold_get_not_mem _ rest _ _ _ hnd.1 h]
              exact hacc
        | none =>
            exact ⟨_, rfl, by
              rw [interpFold_get_not_mem _ rest _ _ _ hnd.1 h]; exact hacc⟩
        | bool b1 =>
            exact ⟨_, rfl, by
              rw [interpFold_get_not_mem _ rest _ _ _ hnd.1 h]; exact hacc⟩
        | int n =>
            exact ⟨_, rfl, by
              rw [interpFold_get_not_mem _ rest _ _ _ hnd.1 h]; exact hacc⟩
        | float q lit =>
            exact ⟨_, rfl, by
              rw [interpFold_get_not_mem _ rest _ _ _ hnd.1 h]; exact hacc⟩
        | list xs =>
            exact ⟨_, rfl, by
              rw [interpFold_get_not_mem _ rest _ _ _ hnd.1 h]; exact hacc⟩
        | dict kvs =>
            exact ⟨_, rfl, by
              rw [interpFold_get_not_mem _ rest _ _ _ hnd.1 h]; exact hacc⟩
      · rw [dGet_cons, if_neg h0] at hitem
        cases v0 with
        | str s =>
            by_cases hm : containsMarker s
            · rcases hi : interpolateCtxString s ctxLike with e | s2
              · simp only [interpFold, hm, if_true, hi] at h
                exact Except.noConfusion h
              · simp only [interpFold, hm, if_true, hi] at h
                exact ih _ hnd.2 hitem
                  (by rw [dGet_dSet_ne _ _ _ _ h0, hacc]) h
            · simp only [interpFold, hm] at h
              exact ih _ hnd.2 hitem hacc h
        | none => exact ih _ hnd.2 hitem hacc h
        | bool b1 => exact ih _ hnd.2 hitem hacc h
        | int n => exact ih _ hnd.2 hitem hacc h
        | float q lit => exact ih _ hnd.2 hitem hacc h
        | list xs => exact ih _ hnd.2 hitem hacc h
        | dict kvs => exact ih _ hnd.2 hitem hacc h

/-- Inversion on a successful run of `resolve`: the coercion and the
interpolation passes succeeded and no required parameter was missing. -/
theorem resolve_ok_inv (desc : Descriptor) (cli : List (String × Val))
    (proj : Option Project) (ctxLike : CtxTree) (m : List (String × Val))
    (h : resolve desc cli proj ctxLike = .ok m) :
    ∃ c, coerceAll desc.params (mergeTiers desc cli proj) = .ok c ∧
      interpAll ctxLike c = .ok m ∧ (requiredMissing desc m).isEmpty := by
  unfold resolve at h
  rcases hc : coerceAll desc.params (mergeTiers desc cli proj) with e | c
  · rw [hc] at h
    exact Except.noConfusion h
  · rw [hc] at h
    dsimp only at h
    rcases hi : interpAll ctxLike c with e | f
    · rw [hi] at h
      exact Except.noConfusion h
    · rw [hi] at h
      dsimp only at h
      by_cases hmiss : (requiredMissing desc f).isEmpty
      · rw [if_pos hmiss] at h
        injection h with h
        subst h
        exact ⟨c, rfl, hi, hmiss⟩
      · rw [if_neg hmiss] at h
        exact Except.noConfusion h

/-- Key lemma behind the precedence claim: whatever value the three-tier
merge left at a declared key is what `resolve` returns at that key, after
coercion and interpolation. -/
theorem resolve_get_of_merge (desc : Descriptor) (cli : List (String × Val))
    (proj : Option Project) (ctxLike : CtxTree) (k : String) (spec : ParamSpec)
    (m : List (String × Val)) (v : Val)
    (hdecl : dGet desc.params k = some spec)
    (hnd : (dKeys desc.params).Nodup)
    (hmerge : dGet (mergeTiers desc cli proj) k = some v)
    (hok : resolve desc cli proj ctxLike = .ok m) :
    ∃ v2, postValue spec ctxLike v = .ok v2 ∧ dGet m k = some v2 := by
  obtain ⟨c, hc, hi, _⟩ := resolve_ok_inv desc cli proj ctxLike m hok
  obtain ⟨v1, hcoerce, hc1⟩ := coerceAll_get desc.params _ c k spec v hnd hdecl hmerge hc
  have hcnd : (dKeys c).Nodup := by
    rw [coerceAll_keys desc.params _ c hc]
    exact mergeTiers_nodup desc cli proj
  obtain ⟨v2, hinterp, hm2⟩ := interpFold_get ctxLike c c m k v1 hcnd hc1 hc1 hi
  refine ⟨v2, ?_, hm2⟩
  unfold postValue
  rw [hcoerce]
  exact hinterp

/-- C1: `param_resolver.resolve` merges with three-tier precedence.  For a
declared parameter `k`: (a) when the CLI supplies `k`, the value returned
at `k` is the CLI value (taken through coercion and interpolation),
whatever the default and the stored value are; (b) when the CLI does not
supply `k` and the project stores `k` for this template id, the stored
value wins over the default; (c) when neither CLI nor project supplies
`k`, the non-`None` descriptor default is returned. -/
theorem c1_three_tier_precedence
    (desc : Descriptor) (cli : List (String × Val)) (proj : Option Project)
    (ctxLike : CtxTree) (k : String) (spec : ParamSpec) (m : List (String × Val))
    (hdecl : dGet desc.params k = some spec)
    (hnd : (dKeys desc.params).Nodup)
    (hok : resolve desc cli proj ctxLike = .ok m) :
    ((dKeys cli).Nodup → ∀ v, dGet cli k = some v →
        ∃ v2, postValue spec ctxLike v = .ok v2 ∧ dGet m k = some v2)
    ∧ (k ∉ dKeys cli →
        ∀ p t v, proj = some p →
          p.templates.filter (fun t => t.id == desc.id) = [t] →
          (dKeys t.params).Nodup → dGet t.params k = some v →
          ∃ v2, postValue spec ctxLike v = .ok v2 ∧ dGet m k = some v2)
    ∧ (k ∉ dKeys cli → proj = Option.none → Val.isNoneV spec.default = false →
        ∃ v2, postValue spec ctxLike spec.default = .ok v2 ∧ dGet m k = some v2) := by
  refine ⟨?_, ?_, ?_⟩
  · intro hcnd v hcli
    apply resolve_get_of_merge desc cli proj ctxLike k spec m v hdecl hnd ?_ hok
    unfold mergeTiers
    exact applyCli_get_unique desc cli _ k v hcnd hcli (by rw [hdecl]; rfl)
  · intro hkcli p t v hp hfil hnd2 hget
    subst hp
    apply resolve_get_of_merge desc cli _ ctxLike k spec m v hdecl hnd ?_ hok
    unfold mergeTiers
    rw [applyCli_get_not_mem desc cli _ k hkcli]
    exact applyStored_single desc p t _ k v hfil hnd2 hget
  · intro hkcli hp hdef
    subst hp
    apply resolve_get_of_merge desc cli _ ctxLike k spec m spec.default hdecl hnd ?_ hok
    unfold mergeTiers
    rw [applyCli_get_not_mem desc cli _ k hkcli]
    exact applyDefaults_get_unique desc k spec hnd hdecl hdef

/-- Witness for C1 at a concrete input: parameter `p` declared with
default `"d"`, stored as `"s"` in the project, supplied as `"c"` on the
CLI; the resolved value is the CLI one. -/
theorem c1_three_tier_precedence_witness :
    dGet c1desc.params "p" = some c1spec
    ∧ (dKeys c1desc.params).Nodup
    ∧ resolve c1desc [("p", .str "c")] (some c1proj) (.node true []) =
        .ok [("p", Val.str "c")]
    ∧ (∃ v2, postValue c1spec (.node true []) (Val.str "c") = .ok v2 ∧
        dGet [("p", Val.str "c")] "p" = some v2) := by
  refine ⟨rfl, by simp [c1desc, c1spec, dKeys], rfl, ?_⟩
  exact (c1_three_tier_precedence c1desc [("p", .str "c")] (some c1proj)
    (.node true []) "p" c1spec [("p", Val.str "c")] rfl
    (by simp [c1desc, c1spec, dKeys]) rfl).1
    (by simp [dKeys]) (Val.str "c") rfl

/-- C9: when one or more required parameters are still absent after the
precedence merge (and coercion and interpolation completed), `resolve`
fails with a single aggregated `ValueError` whose message is built from
the full list of missing keys (`requiredMissing` is by definition the
list of declared parameters that are `required` and absent from the final
dict). -/
theorem c9_missing_required_aggregated
    (desc : Descriptor) (cli : List (String × Val)) (proj : Option Project)
    (ctxLike : CtxTree) (c f : List (String × Val))
    (hc : coerceAll desc.params (mergeTiers desc cli proj) = .ok c)
    (hi : interpAll ctxLike c = .ok f)
    (hne : requiredMissing desc f ≠ []) :
    resolve desc cli proj ctxLike =
      .error (.valueError ("Missing required parameters: "
        ++ String.intercalate ", " (requiredMissing desc f))) := by
  unfold resolve
  rw [hc]
  dsimp only
  rw [hi]
  dsimp only
  rw [if_neg (by simpa [List.isEmpty_iff] using hne)]

/-- Witness for C9 at a concrete input: two required parameters `a`, `b`,
nothing supplied; the single error message names both. -/
theorem c9_missing_required_aggregated_witness :
    coerceAll c9desc.params (mergeTiers c9desc [] Option.none) = .ok []
    ∧ interpAll (.node true []) [] = .ok []
    ∧ requiredMissing c9desc [] ≠ []
    ∧ resolve c9desc [] Option.none (.node true []) =
        .error (.valueError "Missing required parameters: a, b") := by
  refine ⟨rfl, rfl, by simp [c9desc, requiredMissing, dGet], ?_⟩
  exact c9_missing_required_aggregated c9desc [] Option.none (.node true []) [] []
    rfl rfl (by simp [c9desc, requiredMissing, dGet])

/-- C4 (code bug): interpolating `${ctx.project.name}/${ctx.template.id}`
against a context whose `project` branch holds `None` raises
`AttributeError` (from `getattr(None, "name")`) instead of interpolating
the absent/None branch to the empty string; the repository's own test
expects `"/T"` here.  Only a resolved value that is itself `None` maps to
the empty string. -/
theorem c4_none_branch_raises :
    interpolateCtxString
      ("$\x7bctx.project.name\x7d/$\x7bctx.template.id\x7d") c4ctx
      = .error (.attributeError "name") := by
  rfl

theorem claimedFilesC6_eq_planFiles (ownDir targetDir : String)
    (files : List (Val × Val)) :
    claimedFilesC6 ownDir targetDir files = planFiles ownDir targetDir files := by
  induction files with
  | nil => rfl
  | cons p rest ih =>
      obtain ⟨src, dst⟩ := p
      cases src <;> cases dst <;> simp [claimedFilesC6, planFiles, ih]

/-- C6: the plan built by `jinja_renderer._build_plan` is exactly the
plan the claim describes (same mkdir head, same per-pair render/copy
items in declaration order, same trailing chmod), for every descriptor,
context, bundle layout and filesystem. -/
theorem c6_plan_structure (paths : BrsPaths) (pathExists : String → Bool)
    (desc : Descriptor) (ctx : Ctx) :
    (buildPlan paths pathExists desc ctx).map (fun t => t.1)
      = claimedPlanC6 paths pathExists desc ctx := by
  unfold buildPlan claimedPlanC6 expandRenderInto
  rcases interpolateCtxString desc.render_into (ctxToTree ctx) with e | into
  · rfl
  · dsimp only
    rw [claimedFilesC6_eq_planFiles]
    rcases planFiles (templateRoot paths pathExists desc.id)
      (resolvePath (pathConcat ctx.cwd into)) desc.render_files with e | items
    · rfl
    · dsimp only
      rcases planChmod (resolvePath (pathConcat ctx.cwd into)) desc.run_entry with e | tail
      · rfl
      · rfl

theorem execPlan_ok_events (tplRoot : String) (fileExists : String → Bool)
    (tplRender : String → Except PyErr String) (plan : List PlanItem)
    (acc events : List FxEvent)
    (h : execPlan tplRoot fileExists tplRender plan acc = (events, Option.none)) :
    events = acc ++ plan.map stepEvent := by
  induction plan generalizing acc with
  | nil =>
      injection h with h1 h2
      simp [← h1]
  | cons step rest ih =>
      obtain ⟨act, src, dst⟩ := step
      cases act with
      | mkdir =>
          have h2 := ih _ h
          simp [stepEvent, h2]
      | render =>
          by_cases hf : fileExists ((Option.getD src ""))
          · rcases hr : tplRender (Option.getD src "") with e | content
            · simp only [execPlan, hf, if_true, hr] at h
              injection h with h1 h2
              exact absurd h2.symm (by simp)
            · simp only [execPlan, hf, if_true, hr] at h
              have h2 := ih _ h
              simp [stepEvent, h2]
          · simp only [execPlan, hf, if_false] at h
            injection h with h1 h2
            exact absurd h2.symm (by simp)
      | copy =>
          by_cases hf : fileExists ((Option.getD src ""))
          · simp only [execPlan, hf, if_true] at h
            have h2 := ih _ h
            simp [stepEvent, h2]
          · simp only [execPlan, hf, if_false] at h
            injection h with h1 h2
            exact absurd h2.symm (by simp)
      | chmod =>
          have h2 := ih _ h
          simp [stepEvent, h2]

/-- C2: `jinja_renderer.render` computes the same ordered plan whether
`dry` is true or false; a dry run performs no filesystem action and
returns the plan; a non-dry run that succeeds returns that same plan and
performs exactly one filesystem action per plan item, in plan order. -/
theorem c2_dry_run_parity (paths : BrsPaths) (pathExists fileExists : String → Bool)
    (tplRender : String → Except PyErr String) (desc : Descriptor) (ctx : Ctx) :
    (renderTpl paths pathExists fileExists tplRender desc ctx true).2 = []
    ∧ (renderTpl paths pathExists fileExists tplRender desc ctx true).1
        = (buildPlan paths pathExists desc ctx).map (fun t => t.1)
    ∧ ∀ plan,
        (renderTpl paths pathExists fileExists tplRender desc ctx false).1 = .ok plan →
        (renderTpl paths pathExists fileExists tplRender desc ctx true).1 = .ok plan
        ∧ (renderTpl paths pathExists fileExists tplRender desc ctx false).2
            = plan.map stepEvent := by
  rcases hb : buildPlan paths pathExists desc ctx with e | ⟨plan0, tplRoot, target⟩
  · refine ⟨by simp [renderTpl, hb], by simp [renderTpl, hb, Except.map], ?_⟩
    intro plan hh
    rw [show (renderTpl paths pathExists fileExists tplRender desc ctx false).1
          = .error e by simp [renderTpl, hb]] at hh
    exact absurd hh (by simp)
  · rcases hx : execPlan tplRoot fileExists tplRender plan0 [] with ⟨events, oe⟩
    cases oe with
    | none =>
        refine ⟨by simp [renderTpl, hb], by simp [renderTpl, hb, Except.map], ?_⟩
        intro plan hh
        rw [show (renderTpl paths pathExists fileExists tplRender desc ctx false).1
              = .ok plan0 by simp [renderTpl, hb, hx]] at hh
        injection hh with hh
        subst hh
        refine ⟨by simp [renderTpl, hb], ?_⟩
        rw [show (renderTpl paths pathExists fileExists tplRender desc ctx false).2
              = events by simp [renderTpl, hb, hx]]
        simpa using execPlan_ok_events tplRoot fileExists tplRender plan0 [] events hx
    | some e =>
        refine ⟨by simp [renderTpl, hb], by simp [renderTpl, hb, Except.map], ?_⟩
        intro plan hh
        rw [show (renderTpl paths pathExists fileExists tplRender desc ctx false).1
              = .error e by simp [renderTpl, hb, hx]] at hh
        exact absurd hh (by simp)

/-- Witness for C2 at a concrete input: a successful non-dry render
returns the same plan as the dry run and performs exactly the plan's
actions in order. -/
theorem c2_dry_run_parity_witness :
    (renderTpl c2paths (fun p => p == "/brs/templates/hello") (fun _ => true)
        (fun _ => .ok "rendered") c2desc c2ctx false).1 = .ok c2plan
    ∧ (renderTpl c2paths (fun p => p == "/brs/templates/hello") (fun _ => true)
        (fun _ => .ok "rendered") c2desc c2ctx true).1 = .ok c2plan
    ∧ (renderTpl c2paths (fun p => p == "/brs/templates/hello") (fun _ => true)
        (fun _ => .ok "rendered") c2desc c2ctx false).2 = c2plan.map stepEvent := by
  have hfst : (renderTpl c2paths (fun p => p == "/brs/templates/hello") (fun _ => true)
      (fun _ => .ok "rendered") c2desc c2ctx false).1 = .ok c2plan := by rfl
  have hmain := (c2_dry_run_parity c2paths (fun p => p == "/brs/templates/hello")
    (fun _ => true) (fun _ => .ok "rendered") c2desc c2ctx).2.2 c2plan hfst
  exact ⟨hfst, hmain.1, hmain.2⟩

theorem dGet_dRemove_self {α : Type} (m : List (String × α)) (k : String) :
    dGet (dRemove m k) k = Option.none := by
  induction m with
  | nil => rfl
  | cons hd tl ih =>
      obtain ⟨k0, w⟩ := hd
      by_cases h0 : k0 = k
      · simp [dRemove, h0, ih]
      · simp [dRemove, dGet, h0, ih]

theorem dGet_dRemove_ne {α : Type} (m : List (String × α)) (k k' : String)
    (h : k ≠ k') : dGet (dRemove m k) k' = dGet m k' := by
  induction m with
  | nil => rfl
  | cons hd tl ih =>
      obtain ⟨k0, w⟩ := hd
      by_cases h0 : k0 = k
      · subst h0
        simp [dRemove, dGet, h, ih]
      · simp [dRemove, dGet, h0, ih]

theorem tmp_path_ne (path : String) : path ++ ".tmp" ≠ path := by
  intro h
  have hlen := congrArg String.length h
  rw [String.length_append] at hlen
  have h4 : ".tmp".length = 4 := rfl
  omega

/-- C7: every write of the project-state document (`project_io.save`)
and of the ad-hoc meta record (`_save_meta` / the render meta write) goes
through `safe_dump_yaml`, which first serializes the full content to the
temporary sibling `<path>.tmp` and then replaces the target atomically:
on success the target holds the full new document, on failure the target
still holds exactly what it held before and the temporary file has been
removed; in every outcome the target holds either the full new document
or its previous content — never the partial write. -/
theorem c7_atomic_persistence (fs : List (String × DocState)) (path : String)
    (data : Val) (oc : WriteOutcome) :
    ((safeDumpYaml fs path data oc).2 = .ok () →
        dGet (safeDumpYaml fs path data oc).1 path = some (.full data))
    ∧ (∀ e, (safeDumpYaml fs path data oc).2 = .error e →
        dGet (safeDumpYaml fs path data oc).1 path = dGet fs path)
    ∧ dGet (safeDumpYaml fs path data oc).1 (path ++ ".tmp") = Option.none
    ∧ (dGet (safeDumpYaml fs path data oc).1 path = some (.full data)
        ∨ dGet (safeDumpYaml fs path data oc).1 path = dGet fs path)
    ∧ (∀ dir, saveProject fs dir data oc
        = safeDumpYaml fs (pathConcat dir "project.yaml") data oc)
    ∧ (∀ outDir, saveMeta fs outDir data oc
        = safeDumpYaml fs (pathConcat outDir "bpm.meta.yaml") data oc) := by
  have htmp : path ++ ".tmp" ≠ path := tmp_path_ne path
  cases oc with
  | success =>
      refine ⟨fun _ => ?_, fun e he => absurd he (by simp [safeDumpYaml]), ?_, ?_,
        fun dir => rfl, fun outDir => rfl⟩
      · exact dGet_dSet_self _ _ _
      · show dGet (dSet (dRemove (dSet fs (path ++ ".tmp") (.full data))
            (path ++ ".tmp")) path (.full data)) (path ++ ".tmp") = Option.none
        rw [dGet_dSet_ne _ _ _ _ (Ne.symm htmp)]
        exact dGet_dRemove_self _ _
      · left
        exact dGet_dSet_self _ _ _
  | failDuringWrite =>
      refine ⟨fun hok => absurd hok (by simp [safeDumpYaml]), fun e _ => ?_, ?_, ?_,
        fun dir => rfl, fun outDir => rfl⟩
      · show dGet (dRemove (dSet fs (path ++ ".tmp") .halfWritten) (path ++ ".tmp")) path
          = dGet fs path
        rw [dGet_dRemove_ne _ _ _ htmp, dGet_dSet_ne _ _ _ _ htmp]
      · exact dGet_dRemove_self _ _
      · right
        show dGet (dRemove (dSet fs (path ++ ".tmp") .halfWritten) (path ++ ".tmp")) path
          = dGet fs path
        rw [dGet_dRemove_ne _ _ _ htmp, dGet_dSet_ne _ _ _ _ htmp]
  | failDuringReplace =>
      refine ⟨fun hok => absurd hok (by simp [safeDumpYaml]), fun e _ => ?_, ?_, ?_,
        fun dir => rfl, fun outDir => rfl⟩
      · show dGet (dRemove (dSet fs (path ++ ".tmp") (.full data)) (path ++ ".tmp")) path
          = dGet fs path
        rw [dGet_dRemove_ne _ _ _ htmp, dGet_dSet_ne _ _ _ _ htmp]
      · exact dGet_dRemove_self _ _
      · right
        show dGet (dRemove (dSet fs (path ++ ".tmp") (.full data)) (path ++ ".tmp")) path
          = dGet fs path
        rw [dGet_dRemove_ne _ _ _ htmp, dGet_dSet_ne _ _ _ _ htmp]

/-- Witness for C7 at a concrete input: overwriting an existing
`project.yaml` succeeds and leaves the full new document at the target. -/
theorem c7_atomic_persistence_witness :
    dGet (safeDumpYaml [("/p/project.yaml", DocState.full (.str "old"))]
      "/p/project.yaml" (.str "new") .success).1 "/p/project.yaml"
      = some (.full (.str "new")) :=
  (c7_atomic_persistence [("/p/project.yaml", DocState.full (.str "old"))]
    "/p/project.yaml" (.str "new") .success).1 rfl

theorem splitOnCharL_ne_nil (sep : Char) (l : List Char) :
    splitOnCharL sep l ≠ [] := by
  cases l with
  | nil => simp [splitOnCharL]
  | cons c cs =>
      by_cases hc : c = sep
      · simp [splitOnCharL, hc]
      · simp only [splitOnCharL, hc, if_false]
        rcases h : splitOnCharL sep cs with _ | ⟨h0, t⟩ <;> simp

theorem firstComp_covers_list (l : List Char) :
    ((splitOnCharL '.' l).headD []) = l
    ∨ (((splitOnCharL '.' l).headD []) ++ ['.']).isPrefixOf l = true := by
  induction l with
  | nil => left; rfl
  | cons c cs ih =>
      by_cases hc : c = '.'
      · right
        subst hc
        simp [splitOnCharL, List.isPrefixOf]
      · rcases h : splitOnCharL '.' cs with _ | ⟨h0, t⟩
        · exact absurd h (splitOnCharL_ne_nil _ _)
        · simp only [splitOnCharL, hc, if_false, h, List.headD_cons]
          rw [h] at ih
          simp only [List.headD_cons] at ih
          rcases ih with ih | ih
          · left
            rw [ih]
          · right
            simp [List.isPrefixOf, ih]

theorem firstComponent_covers (s : String) :
    coveredByPfx (firstComponent s) s = true := by
  unfold coveredByPfx firstComponent splitOnChar
  rcases h : splitOnCharL '.' s.data with _ | ⟨h0, t⟩
  · exact absurd h (splitOnCharL_ne_nil _ _)
  · simp only [List.map_cons, List.headD_cons]
    have hcov := firstComp_covers_list s.data
    rw [h] at hcov
    simp only [List.headD_cons] at hcov
    rcases hcov with hcov | hcov
    · have hs : String.mk h0 = s := by
        rw [hcov]
      simp [hs]
    · rw [Bool.or_eq_true]
      right
      rw [String.data_append]
      exact hcov

theorem dGet_purge_covered (pfx m : String) (mods : List (String × ModImpl))
    (h : coveredByPfx pfx m = true) :
    dGet (purgeModulePfx pfx mods) m = Option.none := by
  induction mods with
  | nil => rfl
  | cons kv rest ih =>
      obtain ⟨k0, w⟩ := kv
      unfold purgeModulePfx at *
      simp only [List.filter_cons]
      by_cases hk : (!(k0 == pfx || (pfx ++ ".").data.isPrefixOf k0.data)) = true
      · have hne : k0 ≠ m := by
          intro he
          subst he
          unfold coveredByPfx at h
          rw [h] at hk
          simp at hk
        rw [if_pos hk, dGet_cons, if_neg hne]
        exact ih
      · rw [if_neg hk]
        exact ih

theorem importCallable_fresh (provides : String → String → Bool)
    (hasFunc : String → ModImpl → Bool) (brsRoot : String) (st : SysState)
    (call : HookCall) (hroot : brsRoot ∉ st.path)
    (hprov : provides brsRoot call.module = true)
    (hfunc : hasFunc call.func { root := brsRoot, loadedAt := st.time } = true) :
    (importCallable provides hasFunc brsRoot st call).1
      = .ok ({ root := brsRoot, loadedAt := st.time }, call.func)
    ∧ (importCallable provides hasFunc brsRoot st call).2.path = st.path := by
  have hcontains : st.path.contains brsRoot = false := by
    simpa using hroot
  have hpurged : dGet (purgeModulePfx (firstComponent call.module) st.modules)
      call.module = Option.none :=
    dGet_purge_covered _ _ _ (firstComponent_covers call.module)
  unfold importCallable importModule
  simp only [hcontains, Bool.not_false, if_true, hpurged]
  have hfind : List.find? (fun r => provides r call.module) (brsRoot :: st.path)
      = some brsRoot := by
    have : (fun r => provides r call.module) brsRoot = true := hprov
    exact List.find?_cons_of_pos st.path this
  rw [hfind]
  simp [hfunc, List.erase_cons_head]

theorem importResolver_fresh_colon (provides : String → String → Bool)
    (hasFunc : String → ModImpl → Bool) (brsRoot : String) (st : SysState)
    (dotted : String) (p : String × String)
    (hsplit : splitOnce (pyStrip dotted) ":" = some p)
    (hcover : coveredByPfx (firstComponent (pyStrip dotted)) (pyStrip p.1) = true)
    (hroot : brsRoot ∉ st.path)
    (hprov : provides brsRoot (pyStrip p.1) = true)
    (hfunc : hasFunc (pyStrip p.2) { root := brsRoot, loadedAt := st.time } = true) :
    (importResolver provides hasFunc brsRoot st dotted).1
      = .ok ({ root := brsRoot, loadedAt := st.time }, pyStrip p.2)
    ∧ (importResolver provides hasFunc brsRoot st dotted).2.path = st.path := by
  have hcontains : st.path.contains brsRoot = false := by
    simpa using hroot
  have hpurged : dGet (purgeModulePfx (firstComponent (pyStrip dotted)) st.modules)
      (pyStrip p.1) = Option.none :=
    dGet_purge_covered _ _ _ hcover
  unfold importResolver importModule
  simp only [hsplit, hcontains, Bool.not_false, if_true, hpurged]
  have hfind : List.find? (fun r => provides r (pyStrip p.1)) (brsRoot :: st.path)
      = some brsRoot := by
    have : (fun r => provides r (pyStrip p.1)) brsRoot = true := hprov
    exact List.find?_cons_of_pos st.path this
  rw [hfind]
  simp [hfunc, List.erase_cons_head]

theorem importResolver_fresh_nocolon (provides : String → String → Bool)
    (hasFunc : String → ModImpl → Bool) (brsRoot : String) (st : SysState)
    (dotted : String)
    (hsplit : splitOnce (pyStrip dotted) ":" = Option.none)
    (hroot : brsRoot ∉ st.path)
    (hprov : provides brsRoot (pyStrip dotted) = true)
    (hfunc : hasFunc "main" { root := brsRoot, loadedAt := st.time } = true) :
    (importResolver provides hasFunc brsRoot st dotted).1
      = .ok ({ root := brsRoot, loadedAt := st.time }, "main")
    ∧ (importResolver provides hasFunc brsRoot st dotted).2.path = st.path := by
  have hcontains : st.path.contains brsRoot = false := by
    simpa using hroot
  have hpurged : dGet (purgeModulePfx (firstComponent (pyStrip dotted)) st.modules)
      (pyStrip dotted) = Option.none :=
    dGet_purge_covered _ _ _ (firstComponent_covers (pyStrip dotted))
  unfold importResolver importModule
  simp only [hsplit, hcontains, Bool.not_false, if_true, hpurged]
  have hfind : List.find? (fun r => provides r (pyStrip dotted)) (brsRoot :: st.path)
      = some brsRoot := by
    have : (fun r => provides r (pyStrip dotted)) brsRoot = true := hprov
    exact List.find?_cons_of_pos st.path this
  rw [hfind]
  simp [hfunc, List.erase_cons_head]

/-- C5 (amended): before importing, both `hooks_runner._import_callable`
and `publish_resolver._import_resolver` purge the module cache under the
computed top-level purge key and prepend the active bundle root to
the import search path (removing it again afterwards, so the path is
restored), and the imported callable is the one loaded from the active
bundle at the current call — never a cached one — for (a) every hook
reference, (b) every `module:function` resolver reference whose purge key
covers the module (i.e. a dot precedes the colon), and (c) every colonless
resolver reference.  The amendment excludes `module:function` resolver
references with no dot before the colon: there the purge key is the
un-split string and a stale cached module is reused (see the
counterexample). -/
theorem c5_bundle_switch_freshness
    (provides : String → String → Bool) (hasFunc : String → ModImpl → Bool)
    (brsRoot : String) (st : SysState) :
    (∀ call : HookCall, brsRoot ∉ st.path →
        provides brsRoot call.module = true →
        hasFunc call.func { root := brsRoot, loadedAt := st.time } = true →
        (importCallable provides hasFunc brsRoot st call).1
          = .ok ({ root := brsRoot, loadedAt := st.time }, call.func)
        ∧ (importCallable provides hasFunc brsRoot st call).2.path = st.path)
    ∧ (∀ dotted p, splitOnce (pyStrip dotted) ":" = some p →
        coveredByPfx (firstComponent (pyStrip dotted)) (pyStrip p.1) = true →
        brsRoot ∉ st.path →
        provides brsRoot (pyStrip p.1) = true →
        hasFunc (pyStrip p.2) { root := brsRoot, loadedAt := st.time } = true →
        (importResolver provides hasFunc brsRoot st dotted).1
          = .ok ({ root := brsRoot, loadedAt := st.time }, pyStrip p.2)
        ∧ (importResolver provides hasFunc brsRoot st dotted).2.path = st.path)
    ∧ (∀ dotted, splitOnce (pyStrip dotted) ":" = Option.none →
        brsRoot ∉ st.path →
        provides brsRoot (pyStrip dotted) = true →
        hasFunc "main" { root := brsRoot, loadedAt := st.time } = true →
        (importResolver provides hasFunc brsRoot st dotted).1
          = .ok ({ root := brsRoot, loadedAt := st.time }, "main")
        ∧ (importResolver provides hasFunc brsRoot st dotted).2.path = st.path) :=
  ⟨fun call h1 h2 h3 => importCallable_fresh provides hasFunc brsRoot st call h1 h2 h3,
   fun dotted p h1 h2 h3 h4 h5 =>
     importResolver_fresh_colon provides hasFunc brsRoot st dotted p h1 h2 h3 h4 h5,
   fun dotted h1 h2 h3 h4 =>
     importResolver_fresh_nocolon provides hasFunc brsRoot st dotted h1 h2 h3 h4⟩

/-- Counterexample to C5 as stated: for the publish-resolver reference
`foo:bar` (a colon with no dot before it) the purge key is the un-split
string `foo:bar`, which removes nothing, so the call returns the module
cached from the previous bundle (`oldroot`, load time 0) instead of a
fresh load from the active bundle root `newroot` at time 5. -/
theorem c5_stale_resolver_counterexample :
    (importResolver (fun _ _ => true) (fun _ _ => true) "newroot" c5staleState
        "foo:bar").1
      = .ok ({ root := "oldroot", loadedAt := 0 }, "bar")
    ∧ ({ root := "oldroot", loadedAt := 0 } : ModImpl)
        ≠ ({ root := "newroot", loadedAt := 5 } : ModImpl) := by
  exact ⟨rfl, by decide⟩

/-- Witness for the amended C5 at a concrete input: with a stale `hooks`
package cached from `oldroot`, importing the hook `hooks.archive:main`
with active root `newroot` purges the stale entry and loads fresh from
`newroot`, and the import path is restored afterwards. -/
theorem c5_bundle_switch_freshness_witness :
    ("newroot" ∉ (⟨[("hooks", { root := "oldroot", loadedAt := 0 })], [], 7⟩ :
        SysState).path)
    ∧ ((importCallable (fun r _ => r == "newroot") (fun _ _ => true) "newroot"
        ⟨[("hooks", { root := "oldroot", loadedAt := 0 })], [], 7⟩
        { module := "hooks.archive", func := "main" }).1
      = .ok ({ root := "newroot", loadedAt := 7 }, "main"))
    ∧ ((importCallable (fun r _ => r == "newroot") (fun _ _ => true) "newroot"
        ⟨[("hooks", { root := "oldroot", loadedAt := 0 })], [], 7⟩
        { module := "hooks.archive", func := "main" }).2.path = []) := by
  refine ⟨by simp, ?_, ?_⟩
  · exact ((c5_bundle_switch_freshness (fun r _ => r == "newroot") (fun _ _ => true)
      "newroot" ⟨[("hooks", { root := "oldroot", loadedAt := 0 })], [], 7⟩).1
      { module := "hooks.archive", func := "main" } (by simp) (by decide) rfl).1
  · exact ((c5_bundle_switch_freshness (fun r _ => r == "newroot") (fun _ _ => true)
      "newroot" ⟨[("hooks", { root := "oldroot", loadedAt := 0 })], [], 7⟩).1
      { module := "hooks.archive", func := "main" } (by simp) (by decide) rfl).2

/-- Counterexample to C3 as stated: an ad-hoc render with a fresh output
directory creates that directory (`target_cwd.mkdir(parents=True,
exist_ok=True)`, line before the `dataclasses.replace` call) and only
then raises `TypeError` — so the TypeError does not precede every
filesystem mutation. -/
theorem c3_adhoc_mkdir_before_typeerror_counterexample :
    renderService (.ok ()) (.ok { id := "t" }) (.ok {}) (fun _ => Option.none) "/cwd"
        ⟨"/brs/templates", "/brs/workflows", "/brs", "/brs/config"⟩
        (fun _ => false) (fun _ => false) (fun _ => .ok "") (fun _ => .ok ())
        [] "/p" "t" Option.none [] false (some "/out")
      = ([FxEvent.mkdirDir "/out"],
         .error (.typeError "replace() got an unexpected keyword argument"))
    ∧ [FxEvent.mkdirDir "/out"] ≠ ([] : List FxEvent) := by
  exact ⟨rfl, by simp⟩

theorem c3aux_render_project (pathKind : String → Option PathKind)
    (processCwd : String) (brsPaths : BrsPaths) (pe fe : String → Bool)
    (tr : String → Except PyErr String) (hr : String → Except PyErr Unit)
    (bt : List (String × CtxTree)) (projectDir templateId : String)
    (aliasArg : Option String) (paramsKv : List String) (dry : Bool)
    (desc : Descriptor) (p : Project) (cliParams finalParams : List (String × Val))
    (hdep : checkDependencies desc p = [])
    (hcli : parseCliParams paramsKv [] = .ok cliParams)
    (hres : resolve desc cliParams (some p)
        (renderCtxLike p.name (instanceIdOf templateId aliasArg)) = .ok finalParams)
    (hval : validateParamPaths desc finalParams projectDir pathKind = []) :
    renderService (.ok ()) (.ok desc) (.ok p) pathKind processCwd brsPaths pe fe tr hr
        bt projectDir templateId aliasArg paramsKv dry Option.none
      = ([], .error (.typeError "build() got an unexpected keyword argument")) := by
  unfold renderService
  dsimp only [Except.map]
  rw [hdep]
  simp only [List.isEmpty_nil, eq_self_iff_true, if_true]
  rw [hcli]
  dsimp only
  rw [hres]
  dsimp only
  rw [hval]
  rfl

theorem c3aux_render_adhoc (pathKind : String → Option PathKind)
    (processCwd : String) (brsPaths : BrsPaths) (pe fe : String → Bool)
    (tr : String → Except PyErr String) (hr : String → Except PyErr Unit)
    (bt : List (String × CtxTree)) (projectDir templateId : String)
    (aliasArg : Option String) (paramsKv : List String) (dry : Bool)
    (outRaw : String) (desc : Descriptor) (projRes : Except PyErr Project)
    (cliParams finalParams : List (String × Val))
    (hcli : parseCliParams paramsKv [] = .ok cliParams)
    (hres : resolve desc cliParams Option.none
        (renderCtxLike "" (instanceIdOf templateId aliasArg)) = .ok finalParams)
    (hval : validateParamPaths desc finalParams processCwd pathKind = []) :
    renderService (.ok ()) (.ok desc) projRes pathKind processCwd brsPaths pe fe tr hr
        bt projectDir templateId aliasArg paramsKv dry (some outRaw)
      = ([FxEvent.mkdirDir (resolvePath outRaw)],
         .error (.typeError "replace() got an unexpected keyword argument")) := by
  unfold renderService
  dsimp only [Except.map]
  rw [hcli]
  dsimp only
  rw [hres]
  dsimp only
  rw [hval]
  rfl

theorem c3aux_run_project
    (descResOf : String → Except PyErr Descriptor)
    (metaRes : Except PyErr (List (String × Val)))
    (matFn : List (String × Val) → List (String × Val))
    (hookRes : String → Except PyErr Unit) (procRes : String → Except PyErr Unit)
    (projectDir templateId : String) (project : Project) (entry : TemplateEntry)
    (desc : Descriptor)
    (hfind : project.templates.find? (fun t => t.id == templateId) = some entry)
    (hdesc : descResOf (sourceIdOf entry templateId) = .ok desc) :
    runService (.ok ()) descResOf (.ok project) metaRes matFn hookRes procRes
        projectDir templateId Option.none
      = ([], .error (.typeError "build() got an unexpected keyword argument")) := by
  unfold runService
  dsimp only
  rw [hfind]
  dsimp only
  rw [hdesc]
  rfl

theorem c3aux_run_adhoc (descResOf : String → Except PyErr Descriptor)
    (projRes : Except PyErr Project)
    (matFn : List (String × Val) → List (String × Val))
    (hookRes : String → Except PyErr Unit) (procRes : String → Except PyErr Unit)
    (projectDir templateId outRaw : String) (meta : List (String × Val))
    (desc : Descriptor)
    (hdesc : descResOf templateId = .ok desc) :
    runService (.ok ()) descResOf projRes (.ok meta) matFn hookRes procRes
        projectDir templateId (some outRaw)
      = ([], .error (.typeError "build() got an unexpected keyword argument")) := by
  unfold runService
  dsimp only
  rw [hdesc]
  rfl

theorem c3aux_publish_project (descResOf : String → Except PyErr Descriptor)
    (metaRes : Except PyErr (List (String × Val)))
    (matFn : List (String × Val) → List (String × Val))
    (pubRes : Except PyErr (List (String × Val)))
    (projectDir templateId : String) (project : Project) (entry : TemplateEntry)
    (desc : Descriptor)
    (hfind : project.templates.find? (fun t => t.id == templateId) = some entry)
    (hdesc : descResOf (sourceIdOf entry templateId) = .ok desc) :
    publishService (.ok ()) descResOf (.ok project) metaRes matFn pubRes
        projectDir templateId Option.none
      = ([], .error (.typeError "build() got an unexpected keyword argument")) := by
  unfold publishService
  dsimp only
  rw [hfind]
  dsimp only
  rw [hdesc]
  rfl

theorem c3aux_publish_adhoc (descResOf : String → Except PyErr Descriptor)
    (projRes : Except PyErr Project)
    (matFn : List (String × Val) → List (String × Val))
    (pubRes : Except PyErr (List (String × Val)))
    (projectDir templateId outRaw : String) (meta : List (String × Val))
    (desc : Descriptor)
    (hdesc : descResOf templateId = .ok desc) :
    publishService (.ok ()) descResOf projRes (.ok meta) matFn pubRes
        projectDir templateId (some outRaw)
      = ([], .error (.typeError "build() got an unexpected keyword argument")) := by
  unfold publishService
  dsimp only
  rw [hdesc]
  rfl

/-- C3 (amended): every `template_service` operation that reaches its
context-construction step raises a `TypeError`: ad-hoc render fails at
`dataclasses.replace(desc, ..., parent_directory=None)` (Descriptor has
no `parent_directory` field), all other paths fail at the `build_ctx`
call (`context.build` accepts only `(project, tpl_id, params, brs_config,
cwd)` and is passed the extra keyword `source_id`).  No hook runs, no
file is rendered, and no project state or meta record is persisted before
the failure — except that the ad-hoc render path first creates the output
directory (the mkdir precedes the failing `replace`; see the
counterexample to the claim as stated). -/
theorem c3_typeerror_per_operation :
    (∀ (pathKind : String → Option PathKind) (processCwd : String)
        (brsPaths : BrsPaths) (pe fe : String → Bool)
        (tr : String → Except PyErr String) (hr : String → Except PyErr Unit)
        (bt : List (String × CtxTree)) (projectDir templateId : String)
        (aliasArg : Option String) (paramsKv : List String) (dry : Bool)
        (desc : Descriptor) (p : Project)
        (cliParams finalParams : List (String × Val)),
        checkDependencies desc p = [] →
        parseCliParams paramsKv [] = .ok cliParams →
        resolve desc cliParams (some p)
            (renderCtxLike p.name (instanceIdOf templateId aliasArg))
          = .ok finalParams →
        validateParamPaths desc finalParams projectDir pathKind = [] →
        renderService (.ok ()) (.ok desc) (.ok p) pathKind processCwd brsPaths pe fe
            tr hr bt projectDir templateId aliasArg paramsKv dry Option.none
          = ([], .error (.typeError "build() got an unexpected keyword argument")))
    ∧ (∀ (pathKind : String → Option PathKind) (processCwd : String)
        (brsPaths : BrsPaths) (pe fe : String → Bool)
        (tr : String → Except PyErr String) (hr : String → Except PyErr Unit)
        (bt : List (String × CtxTree)) (projectDir templateId : String)
        (aliasArg : Option String) (paramsKv : List String) (dry : Bool)
        (outRaw : String) (desc : Descriptor) (projRes : Except PyErr Project)
        (cliParams finalParams : List (String × Val)),
        parseCliParams paramsKv [] = .ok cliParams →
        resolve desc cliParams Option.none
            (renderCtxLike "" (instanceIdOf templateId aliasArg))
          = .ok finalParams →
        validateParamPaths desc finalParams processCwd pathKind = [] →
        renderService (.ok ()) (.ok desc) projRes pathKind processCwd brsPaths pe fe
            tr hr bt projectDir templateId aliasArg paramsKv dry (some outRaw)
          = ([FxEvent.mkdirDir (resolvePath outRaw)],
             .error (.typeError "replace() got an unexpected keyword argument")))
    ∧ (∀ (descResOf : String → Except PyErr Descriptor)
        (metaRes : Except PyErr (List (String × Val)))
        (matFn : List (String × Val) → List (String × Val))
        (hookRes : String → Except PyErr Unit) (procRes : String → Except PyErr Unit)
        (projectDir templateId : String) (project : Project) (entry : TemplateEntry)
        (desc : Descriptor),
        project.templates.find? (fun t => t.id == templateId) = some entry →
        descResOf (sourceIdOf entry templateId) = .ok desc →
        runService (.ok ()) descResOf (.ok project) metaRes matFn hookRes procRes
            projectDir templateId Option.none
          = ([], .error (.typeError "build() got an unexpected keyword argument")))
    ∧ (∀ (descResOf : String → Except PyErr Descriptor)
        (projRes : Except PyErr Project)
        (matFn : List (String × Val) → List (String × Val))
        (hookRes : String → Except PyErr Unit) (procRes : String → Except PyErr Unit)
        (projectDir templateId outRaw : String) (meta : List (String × Val))
        (desc : Descriptor),
        descResOf templateId = .ok desc →
        runService (.ok ()) descResOf projRes (.ok meta) matFn hookRes procRes
            projectDir templateId (some outRaw)
          = ([], .error (.typeError "build() got an unexpected keyword argument")))
    ∧ (∀ (descResOf : String → Except PyErr Descriptor)
        (metaRes : Except PyErr (List (String × Val)))
        (matFn : List (String × Val) → List (String × Val))
        (pubRes : Except PyErr (List (String × Val)))
        (projectDir templateId : String) (project : Project) (entry : TemplateEntry)
        (desc : Descriptor),
        project.templates.find? (fun t => t.id == templateId) = some entry →
        descResOf (sourceIdOf entry templateId) = .ok desc →
        publishService (.ok ()) descResOf (.ok project) metaRes matFn pubRes
            projectDir templateId Option.none
          = ([], .error (.typeError "build() got an unexpected keyword argument")))
    ∧ (∀ (descResOf : String → Except PyErr Descriptor)
        (projRes : Except PyErr Project)
        (matFn : List (String × Val) → List (String × Val))
        (pubRes : Except PyErr (List (String × Val)))
        (projectDir templateId outRaw : String) (meta : List (String × Val))
        (desc : Descriptor),
        descResOf templateId = .ok desc →
        publishService (.ok ()) descResOf projRes (.ok meta) matFn pubRes
            projectDir templateId (some outRaw)
          = ([], .error (.typeError "build() got an unexpected keyword argument"))) :=
  ⟨fun pk pc bp pe fe tr hr bt pd tid al kv dry desc p cp fp h1 h2 h3 h4 =>
      c3aux_render_project pk pc bp pe fe tr hr bt pd tid al kv dry desc p cp fp
        h1 h2 h3 h4,
   fun pk pc bp pe fe tr hr bt pd tid al kv dry outRaw desc pr cp fp h1 h2 h3 =>
      c3aux_render_adhoc pk pc bp pe fe tr hr bt pd tid al kv dry outRaw desc pr
        cp fp h1 h2 h3,
   fun dof mr mf hkr pr pd tid proj entry desc h1 h2 =>
      c3aux_run_project dof mr mf hkr pr pd tid proj entry desc h1 h2,
   fun dof pjr mf hkr pr pd tid outRaw meta desc h1 =>
      c3aux_run_adhoc dof pjr mf hkr pr pd tid outRaw meta desc h1,
   fun dof mr mf pubr pd tid proj entry desc h1 h2 =>
      c3aux_publish_project dof mr mf pubr pd tid proj entry desc h1 h2,
   fun dof pjr mf pubr pd tid outRaw meta desc h1 =>
      c3aux_publish_adhoc dof pjr mf pubr pd tid outRaw meta desc h1⟩

/-- Witness for the amended C3 at a concrete input: a project-mode render
of template `t` into `/p` (empty parameter set, dependencies satisfied)
raises the `build_ctx` TypeError with no effect performed. -/
theorem c3_typeerror_per_operation_witness :
    checkDependencies { id := "t" } {} = []
    ∧ parseCliParams [] [] = .ok []
    ∧ resolve { id := "t" } [] (some {}) (renderCtxLike "" (instanceIdOf "t" Option.none))
        = .ok []
    ∧ validateParamPaths { id := "t" } [] "/p" (fun _ => Option.none) = []
    ∧ renderService (.ok ()) (.ok { id := "t" }) (.ok {}) (fun _ => Option.none)
        "/cwd" ⟨"/brs/templates", "/brs/workflows", "/brs", "/brs/config"⟩
        (fun _ => false) (fun _ => false) (fun _ => .ok "") (fun _ => .ok ())
        [] "/p" "t" Option.none [] false Option.none
      = ([], .error (.typeError "build() got an unexpected keyword argument")) := by
  refine ⟨rfl, rfl, rfl, rfl, ?_⟩
  exact c3_typeerror_per_operation.1 (fun _ => Option.none) "/cwd"
    ⟨"/brs/templates", "/brs/workflows", "/brs", "/brs/config"⟩
    (fun _ => false) (fun _ => false) (fun _ => .ok "") (fun _ => .ok ())
    [] "/p" "t" Option.none [] false { id := "t" } {} [] [] rfl rfl rfl rfl

theorem parseExistsKind_invalid_str (k : String) (kvs : List (String × Val))
    (s : String) (h : dGet kvs "exists" = some (.str s))
    (hbad : (strToLower s == "file" || strToLower s == "dir"
      || strToLower s == "any") = false) :
    parseExistsKind k kvs = .error (.valueError
      ("Invalid exists value for param " ++ sq ++ k ++ sq ++ ": " ++ s)) := by
  unfold parseExistsKind
  rw [h]
  dsimp only
  rw [hbad]
  rfl

theorem parseExistsKind_bool_true (k : String) (kvs : List (String × Val))
    (h : dGet kvs "exists" = some (.bool true)) :
    parseExistsKind k kvs = .ok (some "any") := by
  unfold parseExistsKind
  rw [h]

theorem parseParams_append (pre : List (String × Val))
    (rest : List (String × Val)) (acc acc2 : List (String × ParamSpec))
    (h : parseParams pre acc = .ok acc2) :
    parseParams (pre ++ rest) acc = parseParams rest acc2 := by
  induction pre generalizing acc with
  | nil =>
      injection h with h
      rw [← h]
      rfl
  | cons kv pre ih =>
      rcases kv with ⟨k, v⟩
      rcases hps : parseParamSpec k v with e | ps
      · rw [show parseParams ((k, v) :: pre) acc
            = (match parseParamSpec k v with
               | .error e => .error e
               | .ok ps => parseParams pre (dSet acc k ps)) from rfl, hps] at h
        exact Except.noConfusion h
      · rw [show parseParams ((k, v) :: pre) acc
            = (match parseParamSpec k v with
               | .error e => .error e
               | .ok ps => parseParams pre (dSet acc k ps)) from rfl, hps] at h
        rw [show ((k, v) :: pre) ++ rest = (k, v) :: (pre ++ rest) from rfl]
        rw [show parseParams ((k, v) :: (pre ++ rest)) acc
            = (match parseParamSpec k v with
               | .error e => .error e
               | .ok ps => parseParams (pre ++ rest) (dSet acc k ps)) from rfl, hps]
        exact ih _ h

theorem parseParams_error_at (pre post : List (String × Val)) (k : String)
    (v : Val) (acc acc2 : List (String × ParamSpec)) (e : PyErr)
    (hpre : parseParams pre acc = .ok acc2)
    (herr : parseParamSpec k v = .error e) :
    parseParams (pre ++ (k, v) :: post) acc = .error e := by
  rw [parseParams_append pre ((k, v) :: post) acc acc2 hpre]
  rw [show parseParams ((k, v) :: post) acc2
      = (match parseParamSpec k v with
         | .error e => .error e
         | .ok ps => parseParams post (dSet acc2 k ps)) from rfl, herr]

theorem loadDescriptor_params_error (tid : String)
    (data : List (String × Val)) (items : List (String × Val)) (e : PyErr)
    (hid : pyEqStr (dGet data "id") tid = true)
    (hitems : yamlSectionItems data "params" = .ok items)
    (herr : parseParams items [] = .error e) :
    loadDescriptor tid data = .error e := by
  unfold loadDescriptor
  rw [if_pos hid]
  rw [hitems]
  dsimp only
  rw [herr]

/-- C8 (code bug): publishing template `t1` of a project that holds a
rendered entry raises the `build_ctx` TypeError (extra `source_id`
keyword) before any resolver runs: no resolver result is written into
the entry, nothing is persisted (no save event), and the claimed
write-and-overwrite behaviour of publish is unreachable.  The resolver
pass is supplied as an oracle that would return a new value for
`report`; it is never consulted. -/
theorem c8_publish_typeerror :
    publishService (.ok ()) (fun _ => .ok { id := "t1" }) (.ok c8project)
        (.ok []) (fun p => p) (.ok [("report", .str "new")]) "/p" "t1" Option.none
      = ([], .error (.typeError "build() got an unexpected keyword argument")) := by
  rfl

/-- C10 (amended): `descriptor_loader.load` fails with a ValueError when
the declared id does not match the requested id, and when some declared
parameter carries a STRING `exists` value whose lowercase form is not
one of `file`, `dir`, `any` (provided the entries before it parse); but
not for every non-`file|dir|any` `exists` value: the bool `True` is
accepted and normalised to the `any` existence check. -/
theorem c10_load_validation :
    (∀ (tid : String) (data : List (String × Val)),
        pyEqStr (dGet data "id") tid = false →
        loadDescriptor tid data
          = .error (.valueError ("Descriptor id mismatch: expected " ++ tid
              ++ ", got " ++ pyStrOpt (dGet data "id"))))
    ∧ (∀ (tid : String) (data : List (String × Val))
        (pre post : List (String × Val)) (k : String)
        (kvs : List (String × Val)) (s : String)
        (acc : List (String × ParamSpec)),
        pyEqStr (dGet data "id") tid = true →
        yamlSectionItems data "params" = .ok (pre ++ (k, .dict kvs) :: post) →
        parseParams pre [] = .ok acc →
        dGet kvs "exists" = some (.str s) →
        (strToLower s == "file" || strToLower s == "dir"
          || strToLower s == "any") = false →
        loadDescriptor tid data
          = .error (.valueError ("Invalid exists value for param " ++ sq ++ k
              ++ sq ++ ": " ++ s)))
    ∧ (∀ (k : String) (kvs : List (String × Val)),
        dGet kvs "exists" = some (.bool true) →
        ∃ ps : ParamSpec, parseParamSpec k (.dict kvs) = .ok ps
          ∧ ps.existsKind = some "any") := by
  refine ⟨?_, ?_, ?_⟩
  · intro tid data h
    unfold loadDescriptor
    rw [h]
    rfl
  · intro tid data pre post k kvs s acc hid hitems hpre hex hbad
    refine loadDescriptor_params_error tid data _ _ hid hitems ?_
    refine parseParams_error_at pre post k (.dict kvs) [] acc _ hpre ?_
    rw [show parseParamSpec k (.dict kvs)
        = (match parseExistsKind k kvs with
           | .error e => .error e
           | .ok ek =>
               .ok { name := k,
                     type := pyStrVal ((dGet kvs "type").getD (.str "str")),
                     cli := (dGet kvs "cli").getD .none,
                     required := pyTruthy ((dGet kvs "required").getD (.bool false)),
                     default := (dGet kvs "default").getD .none,
                     existsKind := ek,
                     description := (dGet kvs "description").getD .none }) from rfl]
    rw [parseExistsKind_invalid_str k kvs s hex hbad]
  · intro k kvs h
    rw [show parseParamSpec k (.dict kvs)
        = (match parseExistsKind k kvs with
           | .error e => .error e
           | .ok ek =>
               .ok { name := k,
                     type := pyStrVal ((dGet kvs "type").getD (.str "str")),
                     cli := (dGet kvs "cli").getD .none,
                     required := pyTruthy ((dGet kvs "required").getD (.bool false)),
                     default := (dGet kvs "default").getD .none,
                     existsKind := ek,
                     description := (dGet kvs "description").getD .none }) from rfl]
    rw [parseExistsKind_bool_true k kvs h]
    exact ⟨_, rfl, rfl⟩

/-- Counterexample to the literal claim: the `exists` value `true`
(a YAML bool) is not one of `file`, `dir`, `any`, yet
`descriptor_loader.load` does not fail — it accepts the descriptor and
normalises the check to `any`. -/
theorem c10_bool_exists_accepted_counterexample :
    loadDescriptor "t" [("id", .str "t"),
        ("params", .dict [("p", .dict [("exists", .bool true)])])]
      = .ok { id := "t",
              params := [("p", { name := "p", existsKind := some "any" })],
              render_into := "$\x7bctx.project.name\x7d/$\x7bctx.template.id\x7d/" } := by
  rfl

/-- The amended id-mismatch and invalid-string-exists branches at
concrete descriptor documents, and the bool normalisation at a concrete
parameter declaration. -/
theorem c10_load_validation_witness :
    loadDescriptor "t" [("id", .str "u")]
      = .error (.valueError "Descriptor id mismatch: expected t, got u")
    ∧ loadDescriptor "t" [("id", .str "t"),
        ("params", .dict [("p", .dict [("exists", .str "maybe")])])]
      = .error (.valueError ("Invalid exists value for param " ++ sq ++ "p"
          ++ sq ++ ": maybe"))
    ∧ ∃ ps : ParamSpec, parseParamSpec "p" (.dict [("exists", .bool true)]) = .ok ps
        ∧ ps.existsKind = some "any" := by
  refine ⟨?_, ?_, ?_⟩
  · exact c10_load_validation.1 "t" [("id", .str "u")] rfl
  · exact c10_load_validation.2.1 "t"
      [("id", .str "t"), ("params", .dict [("p", .dict [("exists", .str "maybe")])])]
      [] [] "p" [("exists", .str "maybe")] "maybe" [] rfl rfl rfl rfl rfl
  · exact c10_load_validation.2.2 "p" [("exists", .bool true)] rfl

end BPM
